import Mathlib

/-!
Verification development for the mcp-content-credentials repository.

The repository's credential-detection pipeline (src/c2pa-service.ts, third revision,
the one with the c2pa-node reader and the TrustMark watermark fallback), its input
validators (src/validators.ts), its trust-configuration bootstrap, its manifest
normalizer (src/parsers/*), and its TrustMark identifier handling are shallowly
embedded below.  JavaScript strings are modelled as `List Char`, JSON values by an
inductive `Json` type, and the JavaScript regular expressions used by the text-strategy
parsers by a small backtracking matcher (`Re` / `reM`) with JavaScript semantics
(leftmost match, left-preferring alternation, greedy quantifiers, capture groups).
External effects (the c2pa-node engine call, `JSON.parse`, `fetch`, the file system,
the Python decoder subprocess) are parameters of the embedded functions.
-/

/-! ## JavaScript string model -/

/-- Shorthand turning a Lean string literal into the `List Char` string model. -/
def str (s : String) : List Char := s.data

/-- Whitespace recognized by JavaScript `String.prototype.trim` (the characters that
can actually occur in this repository's data; all sentinel and validator characters
the proofs depend on are outside this set). -/
def wsChar (c : Char) : Bool :=
  c = ' ' || c = '\t' || c = '\n' || c = '\r' || c = '\x0b' || c = '\x0c' ||
  c = '\u00A0' || c = '\uFEFF'

/-- JavaScript `String.prototype.trim`: drop whitespace from both ends. -/
def trim (s : List Char) : List Char :=
  ((s.dropWhile wsChar).reverse.dropWhile wsChar).reverse

/-- JavaScript `String.prototype.startsWith`: `s` starts with `pat`. -/
def strStartsWith : List Char → List Char → Bool
  | _, [] => true
  | [], _ :: _ => false
  | c :: s, d :: pat => c = d && strStartsWith s pat

/-- JavaScript `String.prototype.includes`: `sub` occurs contiguously in `s`. -/
def strIncludes : List Char → List Char → Bool
  | [], sub => strStartsWith [] sub
  | c :: t, sub => strStartsWith (c :: t) sub || strIncludes t sub

/-- JavaScript `String.prototype.toLowerCase` (ASCII part). -/
def lowerStr (s : List Char) : List Char := s.map Char.toLower

theorem strStartsWith_append (sub : List Char) :
    ∀ post, strStartsWith (sub ++ post) sub = true := by
  induction sub with
  | nil => intro post; cases post <;> rfl
  | cons c t ih => intro post; simp [strStartsWith, ih]

theorem strIncludes_cons (c : Char) (t sub : List Char) :
    strIncludes (c :: t) sub = (strStartsWith (c :: t) sub || strIncludes t sub) := rfl

theorem strIncludes_of_startsWith {s sub : List Char} (h : strStartsWith s sub = true) :
    strIncludes s sub = true := by
  cases s with
  | nil =>
    cases sub with
    | nil => rfl
    | cons d pat => simp [strStartsWith] at h
  | cons c t => rw [strIncludes_cons, h]; rfl

theorem strStartsWith_exists {s sub : List Char} (h : strStartsWith s sub = true) :
    ∃ post, s = sub ++ post := by
  induction sub generalizing s with
  | nil => exact ⟨s, rfl⟩
  | cons d pat ih =>
    cases s with
    | nil => simp [strStartsWith] at h
    | cons c t =>
      simp only [strStartsWith, Bool.and_eq_true, decide_eq_true_eq] at h
      obtain ⟨rfl, h2⟩ := h
      obtain ⟨post, rfl⟩ := ih h2
      exact ⟨post, rfl⟩

theorem strIncludes_intro (pre sub post : List Char) :
    strIncludes (pre ++ sub ++ post) sub = true := by
  induction pre with
  | nil =>
    rw [List.nil_append]
    exact strIncludes_of_startsWith (strStartsWith_append sub post)
  | cons c pre ih =>
    simp only [List.cons_append, List.append_assoc] at ih ⊢
    rw [strIncludes_cons, ih]
    simp

theorem strIncludes_exists {s sub : List Char} (h : strIncludes s sub = true) :
    ∃ pre post, s = pre ++ sub ++ post := by
  induction s with
  | nil =>
    cases sub with
    | nil => exact ⟨[], [], rfl⟩
    | cons d pat => simp [strIncludes, strStartsWith] at h
  | cons c t ih =>
    simp only [strIncludes, Bool.or_eq_true] at h
    rcases h with h | h
    · obtain ⟨post, hp⟩ := strStartsWith_exists h
      exact ⟨[], post, by simp [hp]⟩
    · obtain ⟨pre, post, hp⟩ := ih h
      exact ⟨c :: pre, post, by simp [hp]⟩

theorem strIncludes_reverse {s sub : List Char} (h : strIncludes s sub = true) :
    strIncludes s.reverse sub.reverse = true := by
  obtain ⟨pre, post, rfl⟩ := strIncludes_exists h
  have : (pre ++ sub ++ post).reverse = post.reverse ++ sub.reverse ++ pre.reverse := by
    simp [List.reverse_append, List.append_assoc]
  rw [this]
  exact strIncludes_intro _ _ _

theorem strIncludes_dropWhile {s tl : List Char} {hd : Char}
    (hws : wsChar hd = false) (h : strIncludes s (hd :: tl) = true) :
    strIncludes (s.dropWhile wsChar) (hd :: tl) = true := by
  induction s with
  | nil => simp [strIncludes, strStartsWith] at h
  | cons c t ih =>
    simp only [strIncludes, Bool.or_eq_true] at h
    rcases h with h | h
    · have hc : c = hd := by
        simp only [strStartsWith, Bool.and_eq_true, decide_eq_true_eq] at h
        exact h.1
      subst hc
      rw [List.dropWhile_cons, hws]
      simp only [strIncludes, Bool.or_eq_true]
      left
      simpa [strStartsWith, Bool.and_eq_true, decide_eq_true_eq] using h
    · rw [List.dropWhile_cons]
      cases hcw : wsChar c with
      | true =>
        simp only [hcw, if_true]
        exact ih h
      | false =>
        simp only [hcw, Bool.false_eq_true, if_false, strIncludes, Bool.or_eq_true]
        right
        exact h

/-- An occurrence of a substring whose first and last characters are not whitespace
survives JavaScript `trim` of the enclosing string. -/
theorem strIncludes_trim {s sub : List Char} {c1 c2 : Char}
    (hhd : sub.head? = some c1) (hc1 : wsChar c1 = false)
    (hlast : sub.getLast? = some c2) (hc2 : wsChar c2 = false)
    (h : strIncludes s sub = true) :
    strIncludes (trim s) sub = true := by
  obtain ⟨tl, rfl⟩ : ∃ tl, sub = c1 :: tl := by
    cases sub with
    | nil => simp at hhd
    | cons a b =>
      simp only [List.head?_cons, Option.some.injEq] at hhd
      exact ⟨b, by rw [hhd]⟩
  have step1 : strIncludes (s.dropWhile wsChar) (c1 :: tl) = true :=
    strIncludes_dropWhile hc1 h
  have hrev : strIncludes (s.dropWhile wsChar).reverse (c1 :: tl).reverse = true :=
    strIncludes_reverse step1
  obtain ⟨tl2, hrevsub⟩ : ∃ tl2, (c1 :: tl).reverse = c2 :: tl2 := by
    have hl : (c1 :: tl).reverse.head? = some c2 := by
      rw [List.head?_reverse]
      exact hlast
    cases hr : (c1 :: tl).reverse with
    | nil => rw [hr] at hl; simp at hl
    | cons a b =>
      rw [hr] at hl
      simp only [List.head?_cons, Option.some.injEq] at hl
      exact ⟨b, by rw [hl]⟩
  rw [hrevsub] at hrev
  have step2 := strIncludes_dropWhile hc2 hrev
  rw [← hrevsub] at step2
  have := strIncludes_reverse step2
  rw [List.reverse_reverse] at this
  exact this

/-- A string that contains a non-whitespace character has a nonempty `trim`. -/
theorem trim_ne_nil_of_includes {s : List Char} {c : Char}
    (hcw : wsChar c = false) (h : strIncludes s [c] = true) :
    trim s ≠ [] := by
  intro hnil
  have h1 : ([c] : List Char).head? = some c := rfl
  have h2 : ([c] : List Char).getLast? = some c := rfl
  have := strIncludes_trim h1 hcw h2 hcw h
  rw [hnil] at this
  simp [strIncludes, strStartsWith] at this

/-! ## Regular expressions (JavaScript backtracking semantics)

The text-strategy parsers use JavaScript regex literals.  `Re` is the abstract
syntax needed for the patterns in this repository (all unbounded repetition in
those patterns is over single-character classes), and `reM` is a backtracking
matcher with JavaScript behaviour: alternation prefers the left branch,
quantifiers are greedy, the overall search returns the leftmost match, and
capture groups record the last text they matched on the successful path. -/

inductive Re where
  | eps
  | ch (p : Char → Bool)
  | seq (a b : Re)
  | alt (a b : Re)
  | opt (a : Re)
  | starCh (p : Char → Bool)
  | bndCh (p : Char → Bool) (hi : Nat)
  | grp (idx : Nat) (a : Re)

/-- Capture environment: group index to captured text. -/
def Captures := List (Nat × List Char)

def setCap (caps : Captures) (i : Nat) (v : List Char) : Captures := (i, v) :: caps

def getCap (caps : Captures) (i : Nat) : Option (List Char) :=
  match caps with
  | [] => none
  | (j, v) :: rest => if j = i then some v else getCap rest i

/-- Greedy match of zero or more characters satisfying `p`, then the continuation;
backtracks from the longest attempt downward. -/
def starM (p : Char → Bool) : List Char → Captures →
    (List Char → Captures → Option (List Char × Captures)) → Option (List Char × Captures)
  | [], caps, k => k [] caps
  | c :: rest, caps, k =>
    if p c then
      match starM p rest caps k with
      | some r => some r
      | none => k (c :: rest) caps
    else k (c :: rest) caps

/-- Greedy match of at most `n` characters satisfying `p`, then the continuation. -/
def bndM (p : Char → Bool) : Nat → List Char → Captures →
    (List Char → Captures → Option (List Char × Captures)) → Option (List Char × Captures)
  | 0, s, caps, k => k s caps
  | _ + 1, [], caps, k => k [] caps
  | n + 1, c :: rest, caps, k =>
    if p c then
      match bndM p n rest caps k with
      | some r => some r
      | none => k (c :: rest) caps
    else k (c :: rest) caps

/-- Backtracking matcher in continuation-passing style: try to match `r` against a
prefix of the input, passing the remaining input and captures to the continuation. -/
def reM : Re → List Char → Captures →
    (List Char → Captures → Option (List Char × Captures)) → Option (List Char × Captures)
  | .eps, s, caps, k => k s caps
  | .ch p, s, caps, k =>
    match s with
    | [] => none
    | c :: rest => if p c then k rest caps else none
  | .seq a b, s, caps, k => reM a s caps (fun s2 caps2 => reM b s2 caps2 k)
  | .alt a b, s, caps, k =>
    match reM a s caps k with
    | some r => some r
    | none => reM b s caps k
  | .opt a, s, caps, k =>
    match reM a s caps k with
    | some r => some r
    | none => k s caps
  | .starCh p, s, caps, k => starM p s caps k
  | .bndCh p n, s, caps, k => bndM p n s caps k
  | .grp i a, s, caps, k =>
    reM a s caps (fun s2 caps2 => k s2 (setCap caps2 i (s.take (s.length - s2.length))))

/-- One regex match: the whole matched text, the capture groups, and the rest of the
input after the match. -/
structure MatchRes where
  whole : List Char
  caps : Captures
  rest : List Char

/-- Try to match `r` at the very start of `s`. -/
def reMatchAt (r : Re) (s : List Char) : Option (List Char × Captures) :=
  reM r s [] (fun rest caps => some (rest, caps))

/-- JavaScript `String.prototype.match` with a non-global regex: leftmost match. -/
def jsMatch (r : Re) : List Char → Option MatchRes
  | [] =>
    match reMatchAt r [] with
    | some (rest, caps) => some ⟨[], caps, rest⟩
    | none => none
  | c :: t =>
    match reMatchAt r (c :: t) with
    | some (rest, caps) => some ⟨(c :: t).take ((c :: t).length - rest.length), caps, rest⟩
    | none => jsMatch r t

/-- Repeated search used by `matchAll`: continue after the end of each match.
All patterns in this repository match at least one character, so the fuel
`s.length + 1` suffices. -/
def reSearchAll (r : Re) : Nat → List Char → List MatchRes
  | 0, _ => []
  | fuel + 1, s =>
    match jsMatch r s with
    | none => []
    | some m => m :: (if m.rest.length < s.length then reSearchAll r fuel m.rest else [])

/-- JavaScript `String.prototype.matchAll` with a global regex. -/
def jsMatchAll (r : Re) (s : List Char) : List MatchRes :=
  reSearchAll r (s.length + 1) s

/-- Case-sensitive literal character. -/
def lit (c : Char) : Re := .ch (fun d => d = c)

/-- Case-insensitive literal character (the `i` flag). -/
def ilit (c : Char) : Re := .ch (fun d => d.toLower = c.toLower)

/-- Case-sensitive literal string. -/
def lits (s : String) : Re := s.data.foldr (fun c r => .seq (lit c) r) .eps

/-- Case-insensitive literal string. -/
def ilits (s : String) : Re := s.data.foldr (fun c r => .seq (ilit c) r) .eps

/-- `p+`: one or more characters of a class, greedy. -/
def plusCh (p : Char → Bool) : Re := .seq (.ch p) (.starCh p)

/-- Character classes used by the repository's regexes. -/
def wordCh (c : Char) : Bool := c.isAlpha || c.isDigit || c = '_'

def wordDash (c : Char) : Bool := wordCh c || c = '-'

def wordDotDash (c : Char) : Bool := wordCh c || c = '.' || c = '-'

def colonWs (c : Char) : Bool := c = ':' || wsChar c

def notNl (c : Char) : Bool := !(c = '\n')

def anyCh (_ : Char) : Bool := true

/-- JavaScript `.`: any character except a line terminator. -/
def dotCh (c : Char) : Bool :=
  !(c = '\n' || c = '\r' || c = '\u2028' || c = '\u2029')

def digitCh (c : Char) : Bool := c.isDigit

/-! ## JavaScript truthiness helpers -/

/-- Truthiness of an optional string (`undefined` and `""` are falsy). -/
def jsTruthyStr : Option (List Char) → Bool
  | some s => !s.isEmpty
  | none => false

/-- JavaScript `a || b` over optional strings. -/
def jsOrStr (a b : Option (List Char)) : Option (List Char) :=
  if jsTruthyStr a then a else b

/-! ## Identity parser (src/parsers/identity-parser.ts) -/

/-- `/linkedin\.com\/in\/([\w-]+)|linkedin[:\s]+(?:https?:\/\/)?(?:www\.)?linkedin\.com\/in\/([\w-]+)/i` -/
def linkedInRe : Re :=
  .alt (.seq (ilits "linkedin.com/in/") (.grp 1 (plusCh wordDash)))
       (.seq (ilits "linkedin")
         (.seq (plusCh colonWs)
           (.seq (.opt (.seq (ilits "http") (.seq (.opt (ilit 's')) (ilits "://"))))
             (.seq (.opt (ilits "www."))
               (.seq (ilits "linkedin.com/in/") (.grp 2 (plusCh wordDash)))))))

/-- `(?:name|creator|author)` -/
def nameLabelRe : Re := .alt (ilits "name") (.alt (ilits "creator") (ilits "author"))

/-- The dynamic (but fixed-text) pattern built in parseLinkedInIdentity:
`(?:name|creator|author)[:\s]+([^\n]+)(?:[\s\S]{0,200}linkedin|linkedin[\s\S]{0,200}(?:name|creator|author)[:\s]+([^\n]+))` with flag `i`. -/
def nameNearLinkedInRe : Re :=
  .seq nameLabelRe
    (.seq (plusCh colonWs)
      (.seq (.grp 1 (plusCh notNl))
        (.alt (.seq (.bndCh anyCh 200) (ilits "linkedin"))
              (.seq (ilits "linkedin")
                (.seq (.bndCh anyCh 200)
                  (.seq nameLabelRe (.seq (plusCh colonWs) (.grp 2 (plusCh notNl)))))))))

structure LinkedInIdentity where
  name : List Char
  profileUrl : List Char
  verified : Bool
deriving DecidableEq

/-- Embedding of `parseLinkedInIdentity` (identity-parser.ts, lines 17-46). -/
def parseLinkedInIdentity (manifestText : List Char) : Option LinkedInIdentity :=
  match jsMatch linkedInRe manifestText with
  | none => none
  | some m =>
    let username := jsOrStr (getCap m.caps 1) (getCap m.caps 2)
    match username with
    | some u =>
      if u.isEmpty then none
      else
        let nameMatch := jsMatch nameNearLinkedInRe manifestText
        let t1 := nameMatch.bind (fun nm => (getCap nm.caps 1).map trim)
        let t2 := nameMatch.bind (fun nm => (getCap nm.caps 2).map trim)
        let name := (jsOrStr t1 (jsOrStr t2 (some u))).getD u
        some { name := name, profileUrl := str "https://www.linkedin.com/in/" ++ u,
               verified := true }
    | none => none

structure CreatorIdentity where
  name : Option (List Char)
  identifier : Option (List Char)
  socialAccounts : Option (List (List Char))
deriving DecidableEq

/-- `/(?:creator|author|made by)[:\s]+([^\n]+)/gi` -/
def creatorRe : Re :=
  .seq (.alt (ilits "creator") (.alt (ilits "author") (ilits "made by")))
    (.seq (plusCh colonWs) (.grp 1 (plusCh notNl)))

/-- `/(?:instagram|twitter|x\.com|facebook|tiktok|youtube)[:\s]+(@?[\w.-]+)/gi` -/
def socialRe : Re :=
  .seq (.alt (ilits "instagram")
         (.alt (ilits "twitter")
           (.alt (ilits "x.com")
             (.alt (ilits "facebook") (.alt (ilits "tiktok") (ilits "youtube"))))))
    (.seq (plusCh colonWs) (.grp 1 (.seq (.opt (lit '@')) (plusCh wordDotDash))))

/-- Mutating the last pushed identity (`identities[identities.length - 1]`). -/
def setLastSocial : List CreatorIdentity → List (List Char) → List CreatorIdentity
  | [], _ => []
  | [i], accounts => [{ i with socialAccounts := some accounts }]
  | i :: rest, accounts => i :: setLastSocial rest accounts

/-- Embedding of `parseOtherIdentities` (identity-parser.ts, lines 51-88). -/
def parseOtherIdentities (manifestText : List Char) : Option (List CreatorIdentity) :=
  let identities := (jsMatchAll creatorRe manifestText).foldl
    (fun acc m =>
      match getCap m.caps 1 with
      | some g =>
        let name := trim g
        if !name.isEmpty && !(strIncludes (lowerStr name) (str "linkedin")) then
          acc ++ [{ name := some name, identifier := none, socialAccounts := none }]
        else acc
      | none => acc) []
  let socialAccounts := (jsMatchAll socialRe manifestText).foldl
    (fun acc m =>
      match getCap m.caps 1 with
      | some g =>
        let handle := trim g
        if !handle.isEmpty then acc ++ [handle] else acc
      | none => acc) []
  let identities :=
    if socialAccounts.length > 0 then
      if identities.length > 0 then setLastSocial identities socialAccounts
      else [{ name := none, identifier := none, socialAccounts := some socialAccounts }]
    else identities
  if identities.length > 0 then some identities else none

structure WhoThisComesFrom where
  linkedInIdentity : Option LinkedInIdentity
  otherIdentities : Option (List CreatorIdentity)
deriving DecidableEq

/-- Embedding of `parseWhoThisComesFrom` (identity-parser.ts, lines 93-109). -/
def parseWhoThisComesFrom (manifestText : List Char) : Option WhoThisComesFrom :=
  let linkedInIdentity := parseLinkedInIdentity manifestText
  let otherIdentities := parseOtherIdentities manifestText
  let sec : WhoThisComesFrom :=
    { linkedInIdentity := linkedInIdentity, otherIdentities := otherIdentities }
  if sec.linkedInIdentity.isSome || sec.otherIdentities.isSome then some sec
  else none

/-! ## JSON value model -/

/-- JSON values as produced by `JSON.parse` / `Reader.json()`. -/
inductive Json where
  | null
  | bool (b : Bool)
  | num (n : Int)
  | str (s : List Char)
  | arr (elems : List Json)
  | obj (fields : List (List Char × Json))

/-- JavaScript property access on a value (`undefined` for a missing key or a
non-object receiver). -/
def Json.getField : Json → List Char → Option Json
  | .obj fields, k => go fields k
  | _, _ => none
where
  go : List (List Char × Json) → List Char → Option Json
    | [], _ => none
    | (k2, v) :: rest, k => if k2 = k then some v else go rest k

/-- JavaScript truthiness of a JSON value. -/
def jsTruthy : Json → Bool
  | .null => false
  | .bool b => b
  | .num n => !(n = 0)
  | .str s => !s.isEmpty
  | .arr _ => true
  | .obj _ => true

/-- JavaScript `typeof x === 'object'` (true for objects, arrays and `null`). -/
def isObjLike : Json → Bool
  | .null => true
  | .arr _ => true
  | .obj _ => true
  | _ => false

def jsTruthyOpt : Option Json → Bool
  | some j => jsTruthy j
  | none => false

def isObjLikeOpt : Option Json → Bool
  | some j => isObjLike j
  | none => false

/-- JavaScript `a || b` over property lookups. -/
def jsOrJson (a b : Option Json) : Option Json :=
  if jsTruthyOpt a then a else b

/-- `typeof x === 'string' ? x : undefined`. -/
def asString : Option Json → Option (List Char)
  | some (.str s) => some s
  | _ => none

/-! ## Content parser (src/parsers/content-parser.ts) -/

structure ContentAction where
  action : List Char
  softwareAgent : Option (List Char)
  when : Option (List Char)
  parameters : Option Json

structure GenAIInfo where
  generative : Option Bool
  training : Option Bool
  model : Option (List Char)
  version : Option (List Char)
deriving DecidableEq

structure AboutThisContent where
  actions : Option (List ContentAction)
  genAIInfo : Option GenAIInfo

/-- `/(?:action|edited|modified|created|generated)[:\s]+([^\n]+)/gi` -/
def actionLabelRe : Re :=
  .seq (.alt (ilits "action")
         (.alt (ilits "edited")
           (.alt (ilits "modified") (.alt (ilits "created") (ilits "generated")))))
    (.seq (plusCh colonWs) (.grp 1 (plusCh notNl)))

/-- `/c2pa\.actions?\.([a-z.]+)/gi` (with the `i` flag `[a-z]` also matches capitals). -/
def azDot (c : Char) : Bool := c.isAlpha || c = '.'

def c2paActionRe : Re :=
  .seq (ilits "c2pa.action") (.seq (.opt (ilit 's')) (.seq (ilit '.') (.grp 1 (plusCh azDot))))

/-- Embedding of `parseContentActions` (content-parser.ts, lines 13-52).

The two inner searches build a regex dynamically from the already-matched action
text (`new RegExp(actionText + "[\\s\\S]{0,100}(?:software|agent|tool)[:\\s]+([^\\n]+)", "i")`
and the timestamp analogue); those two dynamically-compiled searches are modelled as
the oracle parameters `swLookup`/`whenLookup`, which are given the action text and
return the raw first capture group of the corresponding search on the manifest text. -/
def parseContentActions (swLookup whenLookup : List Char → Option (List Char))
    (manifestText : List Char) : Option (List ContentAction) :=
  let step := fun (acc : List ContentAction) (m : MatchRes) =>
    match getCap m.caps 1 with
    | some g =>
      let actionText := trim g
      if !actionText.isEmpty then
        let softwareAgent :=
          match swLookup actionText with
          | some g2 => if !g2.isEmpty then some (trim g2) else none
          | none => none
        let whenField :=
          match whenLookup actionText with
          | some g2 => if !g2.isEmpty then some g2 else none
          | none => none
        acc ++ [{ action := actionText, softwareAgent := softwareAgent,
                  when := whenField, parameters := none }]
      else acc
    | none => acc
  let actions := (jsMatchAll actionLabelRe manifestText).foldl step []
  let actions := (jsMatchAll c2paActionRe manifestText).foldl step actions
  if actions.length > 0 then some actions else none

/-- `/(?:ai|artificial intelligence|generative|generated|gen.?ai)/i` -/
def genAIRe : Re :=
  .alt (ilits "ai")
    (.alt (ilits "artificial intelligence")
      (.alt (ilits "generative")
        (.alt (ilits "generated")
          (.seq (ilits "gen") (.seq (.opt (.ch dotCh)) (ilits "ai"))))))

/-- `/(?:training|data.?mining|model.?training)/i` -/
def trainingRe : Re :=
  .alt (ilits "training")
    (.alt (.seq (ilits "data") (.seq (.opt (.ch dotCh)) (ilits "mining")))
      (.seq (ilits "model") (.seq (.opt (.ch dotCh)) (ilits "training"))))

/-- `/(?:model|ai.?model)[:\s]+([^\n]+)/i` -/
def modelRe : Re :=
  .seq (.alt (ilits "model") (.seq (ilits "ai") (.seq (.opt (.ch dotCh)) (ilits "model"))))
    (.seq (plusCh colonWs) (.grp 1 (plusCh notNl)))

/-- `/version[:\s]+([^\n]+)/i` -/
def versionRe : Re :=
  .seq (ilits "version") (.seq (plusCh colonWs) (.grp 1 (plusCh notNl)))

/-- Embedding of `parseGenAIInfo` (content-parser.ts, lines 57-84). -/
def parseGenAIInfo (manifestText : List Char) : Option GenAIInfo :=
  let generative := if (jsMatch genAIRe manifestText).isSome then some true else none
  let training := if (jsMatch trainingRe manifestText).isSome then some true else none
  let model :=
    match (jsMatch modelRe manifestText).bind (fun m => getCap m.caps 1) with
    | some g => if !g.isEmpty then some (trim g) else none
    | none => none
  let version :=
    match (jsMatch versionRe manifestText).bind (fun m => getCap m.caps 1) with
    | some g => if !g.isEmpty && jsTruthyStr model then some (trim g) else none
    | none => none
  let genAI : GenAIInfo :=
    { generative := generative, training := training, model := model, version := version }
  if genAI.generative.isSome || genAI.training.isSome || genAI.model.isSome ||
     genAI.version.isSome then some genAI
  else none

/-- Embedding of `parseAboutThisContent` (content-parser.ts, lines 89-103). -/
def parseAboutThisContent (swLookup whenLookup : List Char → Option (List Char))
    (manifestText : List Char) : Option AboutThisContent :=
  let actions := parseContentActions swLookup whenLookup manifestText
  let genAIInfo := parseGenAIInfo manifestText
  let sec : AboutThisContent := { actions := actions, genAIInfo := genAIInfo }
  if sec.actions.isSome || sec.genAIInfo.isSome then some sec else none

/-! ## Credentials parser (src/parsers/credentials-parser.ts) -/

structure AboutTheseCredentials where
  claimSigner : Option (List Char)
  signedBy : Option (List Char)
  timestamp : Option (List Char)
deriving DecidableEq

/-- `/(?:claim.?signer|signer)[:\s]+([^\n]+)/i` -/
def signerRe : Re :=
  .seq (.alt (.seq (ilits "claim") (.seq (.opt (.ch dotCh)) (ilits "signer"))) (ilits "signer"))
    (.seq (plusCh colonWs) (.grp 1 (plusCh notNl)))

/-- `/signed by[:\s]+([^\n]+)/i` -/
def signedByRe : Re :=
  .seq (ilits "signed by") (.seq (plusCh colonWs) (.grp 1 (plusCh notNl)))

/-- `/(?:timestamp|time|date|signed.?at)[:\s]+([^\n]+(?:Z|[+-]\d{2}:\d{2})?)/i` -/
def plusMinus (c : Char) : Bool := c = '+' || c = '-'

def tzTailRe : Re :=
  .alt (ilit 'Z')
    (.seq (.ch plusMinus)
      (.seq (.ch digitCh) (.seq (.ch digitCh) (.seq (lit ':') (.seq (.ch digitCh) (.ch digitCh))))))

def timestampLabelRe : Re :=
  .seq (.alt (ilits "timestamp")
         (.alt (ilits "time")
           (.alt (ilits "date") (.seq (ilits "signed") (.seq (.opt (.ch dotCh)) (ilits "at"))))))
    (.seq (plusCh colonWs) (.grp 1 (.seq (plusCh notNl) (.opt tzTailRe))))

/-- `/(\d{4}-\d{2}-\d{2}T\d{2}:\d{2}:\d{2}(?:\.\d+)?(?:Z|[+-]\d{2}:\d{2})?)/` (no flag) -/
def digits (n : Nat) : Re :=
  match n with
  | 0 => .eps
  | k + 1 => .seq (.ch digitCh) (digits k)

def isoRe : Re :=
  .grp 1
    (.seq (digits 4) (.seq (lit '-') (.seq (digits 2) (.seq (lit '-') (.seq (digits 2)
      (.seq (lit 'T') (.seq (digits 2) (.seq (lit ':') (.seq (digits 2) (.seq (lit ':')
        (.seq (digits 2)
          (.seq (.opt (.seq (lit '.') (plusCh digitCh))) (.opt tzTailRe)))))))))))))

/-- Embedding of `parseAboutTheseCredentials` (credentials-parser.ts, lines 13-54). -/
def parseAboutTheseCredentials (manifestText : List Char) : Option AboutTheseCredentials :=
  let claimSigner :=
    match (jsMatch signerRe manifestText).bind (fun m => getCap m.caps 1) with
    | some g => if !g.isEmpty then some (trim g) else none
    | none => none
  let signedBy :=
    match (jsMatch signedByRe manifestText).bind (fun m => getCap m.caps 1) with
    | some g => if !g.isEmpty && !(jsTruthyStr claimSigner) then some (trim g) else none
    | none => none
  let timestamp :=
    match (jsMatch timestampLabelRe manifestText).bind (fun m => getCap m.caps 1) with
    | some g => if !g.isEmpty then some (trim g) else none
    | none => none
  let timestamp :=
    if jsTruthyStr timestamp then timestamp
    else
      match (jsMatch isoRe manifestText).bind (fun m => getCap m.caps 1) with
      | some g => if !g.isEmpty then some g else timestamp
      | none => timestamp
  let sec : AboutTheseCredentials :=
    { claimSigner := claimSigner, signedBy := signedBy, timestamp := timestamp }
  if sec.claimSigner.isSome || sec.signedBy.isSome || sec.timestamp.isSome then some sec
  else none

/-! ## Validation parser (src/parsers/validation-parser.ts) -/

structure CertificateInfo where
  issuer : Option (List Char)
  subject : Option (List Char)
  serialNumber : Option (List Char)
  validFrom : Option (List Char)
  validUntil : Option (List Char)
deriving DecidableEq

structure ValidationInfo where
  certificate : Option CertificateInfo
  trustInfo : Option (List (List Char))
deriving DecidableEq

def CertificateInfo.hasKeys (c : CertificateInfo) : Bool :=
  c.issuer.isSome || c.subject.isSome || c.serialNumber.isSome || c.validFrom.isSome ||
    c.validUntil.isSome

/-- `/issuer[:\s]+([^\n]+)/i` -/
def issuerRe : Re :=
  .seq (ilits "issuer") (.seq (plusCh colonWs) (.grp 1 (plusCh notNl)))

/-- `/subject[:\s]+([^\n]+)/i` -/
def subjectRe : Re :=
  .seq (ilits "subject") (.seq (plusCh colonWs) (.grp 1 (plusCh notNl)))

/-- `/serial[:\s]*(?:number)?[:\s]+([^\n]+)/i` -/
def serialRe : Re :=
  .seq (ilits "serial")
    (.seq (.starCh colonWs)
      (.seq (.opt (ilits "number")) (.seq (plusCh colonWs) (.grp 1 (plusCh notNl)))))

/-- `/(?:valid from|not before)[:\s]+([^\n]+)/i` -/
def validFromRe : Re :=
  .seq (.alt (ilits "valid from") (ilits "not before"))
    (.seq (plusCh colonWs) (.grp 1 (plusCh notNl)))

/-- `/(?:valid until|not after)[:\s]+([^\n]+)/i` -/
def validUntilRe : Re :=
  .seq (.alt (ilits "valid until") (ilits "not after"))
    (.seq (plusCh colonWs) (.grp 1 (plusCh notNl)))

/-- `/(?:trust|trusted|verified by)[:\s]+([^\n]+)/gi` -/
def trustRe : Re :=
  .seq (.alt (ilits "trust") (.alt (ilits "trusted") (ilits "verified by")))
    (.seq (plusCh colonWs) (.grp 1 (plusCh notNl)))

/-- The conditional `cert.x = match[1].trim()` assignment pattern used throughout
validation-parser.ts: assign when the raw first group is truthy. -/
def certAssign (m : Option MatchRes) : Option (List Char) :=
  match m.bind (fun mr => getCap mr.caps 1) with
  | some g => if !g.isEmpty then some (trim g) else none
  | none => none

/-- Embedding of `parseValidationInfo` (validation-parser.ts, lines 13-68). -/
def parseValidationInfo (manifestText : List Char) : Option ValidationInfo :=
  let cert : CertificateInfo :=
    { issuer := certAssign (jsMatch issuerRe manifestText)
      subject := certAssign (jsMatch subjectRe manifestText)
      serialNumber := certAssign (jsMatch serialRe manifestText)
      validFrom := certAssign (jsMatch validFromRe manifestText)
      validUntil := certAssign (jsMatch validUntilRe manifestText) }
  let trustInfo := (jsMatchAll trustRe manifestText).foldl
    (fun acc m =>
      match getCap m.caps 1 with
      | some g =>
        let t := trim g
        if !t.isEmpty then acc ++ [t] else acc
      | none => acc) []
  let sec : ValidationInfo :=
    { certificate := if cert.hasKeys then some cert else none
      trustInfo := if trustInfo.length > 0 then some trustInfo else none }
  if sec.certificate.isSome || sec.trustInfo.isSome then some sec else none

/-! ## Structured JSON manifest parser (src/parsers/manifest-parser.ts, c2pa-node revision) -/

structure ParsedManifestData where
  whoThisComesFrom : Option WhoThisComesFrom
  aboutThisContent : Option AboutThisContent
  aboutTheseCredentials : Option AboutTheseCredentials
  validationInfo : Option ValidationInfo
  rawManifest : Option (List Char)

/-- Embedding of `parseCreatorInfo` (manifest-parser.ts, lines 197-217). -/
def parseCreatorInfo (manifest : Json) : Option WhoThisComesFrom :=
  match manifest.getField (str "claim_generator_info") with
  | some (.arr claimGenInfo) =>
    if claimGenInfo.length = 0 then none
    else
      let identities := claimGenInfo.foldl
        (fun acc gen =>
          if jsTruthy gen && isObjLike gen then
            match asString (gen.getField (str "name")) with
            | some n =>
              if !n.isEmpty then
                let identifier :=
                  match asString (gen.getField (str "version")) with
                  | some v => if !v.isEmpty then some (str "v" ++ v) else none
                  | none => none
                acc ++ [{ name := some n, identifier := identifier,
                          socialAccounts := none : CreatorIdentity }]
              else acc
            | none => acc
          else acc) []
      if identities.length > 0 then
        some { linkedInIdentity := none, otherIdentities := some identities }
      else none
  | _ => none

/-- Embedding of `parseActions` (manifest-parser.ts, lines 222-256): scan the
assertions array for `c2pa.actions.v2` assertions and push one `ContentAction`
per action item whose `action` field is a truthy string. -/
def parseActions (manifest : Json) : List ContentAction :=
  match manifest.getField (str "assertions") with
  | some (.arr assertions) =>
    assertions.foldl
      (fun acc assertion =>
        if jsTruthy assertion && isObjLike assertion then
          let labelOk :=
            match asString (assertion.getField (str "label")) with
            | some l => l == str "c2pa.actions.v2"
            | none => false
          if labelOk && jsTruthyOpt (assertion.getField (str "data")) &&
             isObjLikeOpt (assertion.getField (str "data")) then
            match assertion.getField (str "data") with
            | some data =>
              match data.getField (str "actions") with
              | some (.arr actionsArray) =>
                actionsArray.foldl
                  (fun acc2 actionItem =>
                    if jsTruthy actionItem && isObjLike actionItem then
                      match asString (actionItem.getField (str "action")) with
                      | some a =>
                        if !a.isEmpty then
                          acc2 ++ [{ action := a,
                                     softwareAgent :=
                                       asString (actionItem.getField (str "softwareAgent")),
                                     when := asString (actionItem.getField (str "when")),
                                     parameters :=
                                       match actionItem.getField (str "parameters") with
                                       | some p =>
                                         if jsTruthy p && isObjLike p then some p else none
                                       | none => none }]
                        else acc2
                      | none => acc2
                    else acc2) acc
              | _ => acc
            | none => acc
          else acc
        else acc) []
  | _ => []

/-- Embedding of `parseSignatureInfo` (manifest-parser.ts, lines 261-275). -/
def parseSignatureInfo (manifest : Json) : Option AboutTheseCredentials :=
  let sigInfo := jsOrJson (manifest.getField (str "signature_info"))
                          (manifest.getField (str "signature"))
  if jsTruthyOpt sigInfo && isObjLikeOpt sigInfo then
    match sigInfo with
    | some sig =>
      let claimSigner := asString (sig.getField (str "common_name"))
      let signedBy :=
        match asString (sig.getField (str "issuer")) with
        | some i => if !(jsTruthyStr claimSigner) then some i else none
        | none => none
      let timestamp := asString (sig.getField (str "time"))
      let result : AboutTheseCredentials :=
        { claimSigner := claimSigner, signedBy := signedBy, timestamp := timestamp }
      if result.claimSigner.isSome || result.signedBy.isSome || result.timestamp.isSome then
        some result
      else none
    | none => none
  else none

/-- Embedding of `parseValidationResults` (manifest-parser.ts, lines 280-321). -/
def parseValidationResults (root manifest : Json) : Option ValidationInfo :=
  let sigInfo := jsOrJson (manifest.getField (str "signature_info"))
                          (manifest.getField (str "signature"))
  let certificate :=
    if jsTruthyOpt sigInfo && isObjLikeOpt sigInfo then
      match sigInfo with
      | some sig =>
        let cert : CertificateInfo :=
          { issuer := asString (sig.getField (str "issuer"))
            subject := asString (sig.getField (str "common_name"))
            serialNumber := asString (sig.getField (str "cert_serial_number"))
            validFrom := asString (sig.getField (str "time"))
            validUntil := none }
        if cert.hasKeys then some cert else none
      | none => none
    else none
  let trustInfo :=
    match root.getField (str "validation_status") with
    | some (.arr validationStatus) =>
      validationStatus.foldl
        (fun acc status =>
          if jsTruthy status && isObjLike status then
            match asString (status.getField (str "explanation")) with
            | some e => acc ++ [e]
            | none => acc
          else acc) []
    | _ => []
  let validationInfo : ValidationInfo :=
    { certificate := certificate
      trustInfo := if trustInfo.length > 0 then some trustInfo else none }
  if validationInfo.certificate.isSome || validationInfo.trustInfo.isSome then
    some validationInfo
  else none

/-- Embedding of `parseManifestJson` (manifest-parser.ts, lines 148-192). -/
def parseManifestJson (json : Json) (rawText : List Char) : ParsedManifestData :=
  let parsed : ParsedManifestData :=
    { whoThisComesFrom := none, aboutThisContent := none, aboutTheseCredentials := none,
      validationInfo := none, rawManifest := some rawText }
  if !(jsTruthy json && isObjLike json) then parsed
  else
    let activeId := jsOrJson (json.getField (str "active_manifest"))
                             (json.getField (str "activeManifest"))
    if !(jsTruthyOpt activeId) then parsed
    else
      match activeId with
      | some (.str aid) =>
        match json.getField (str "manifests") with
        | some manifests =>
          if !(jsTruthy manifests && isObjLike manifests) then parsed
          else
            match manifests.getField aid with
            | some mf =>
              if !(jsTruthy mf && isObjLike mf) then parsed
              else
                let actions := parseActions mf
                { whoThisComesFrom := parseCreatorInfo mf
                  aboutThisContent :=
                    if actions.length > 0 then
                      some { actions := some actions, genAIInfo := none }
                    else none
                  aboutTheseCredentials := parseSignatureInfo mf
                  validationInfo := parseValidationResults json mf
                  rawManifest := some rawText }
            | none => parsed
        | none => parsed
      | _ => parsed

/-! ## TrustMark watermark handling (src/parsers/trustmark-parser.ts, src/trustmark-service.ts) -/

structure TrustMarkWatermarkData where
  identifier : List Char
  schema : List Char
  raw : List Char
  manifestUrl : Option (List Char)
deriving DecidableEq

structure TrustMarkResult where
  success : Bool
  hasWatermark : Bool
  watermarkData : Option TrustMarkWatermarkData
  error : Option (List Char)
deriving DecidableEq

inductive TMIdType where
  | url
  | hash
  | identifier
deriving DecidableEq

structure TMIdParsed where
  type : TMIdType
  value : List Char
  description : List Char
deriving DecidableEq

def isHexDigitCh (c : Char) : Bool :=
  c.isDigit || ('a' ≤ c && c ≤ 'f') || ('A' ≤ c && c ≤ 'F')

/-- Embedding of `parseTrustMarkIdentifier` (trustmark-parser.ts, lines 160-189). -/
def parseTrustMarkIdentifier (identifier : List Char) : TMIdParsed :=
  if strStartsWith identifier (str "http://") || strStartsWith identifier (str "https://") then
    { type := .url, value := identifier,
      description := str "URL reference to Content Credentials manifest" }
  else if (!identifier.isEmpty && identifier.all isHexDigitCh) && identifier.length ≥ 32 then
    { type := .hash, value := identifier,
      description := str "Hash-based identifier for Content Credentials lookup" }
  else
    { type := .identifier, value := identifier,
      description := str "Direct Content Credentials identifier" }

/-- Modelled from the spec: the Python decoder script (scripts/trustmark-decode.py) that
builds the decoder's JSON reply is not under src/.  Per the spec, `manifestUrl` is
"present iff `identifier` parses as an absolute URL", and the repository documents the
composition over the in-src classifier as
`manifestUrl: parsed.type === 'url' ? parsed.value : undefined`
(TRUSTMARK.md, the identifier parsing contract). -/
def decodeWatermarkPayload (identifier schema raw : List Char) : TrustMarkWatermarkData :=
  let parsed := parseTrustMarkIdentifier identifier
  { identifier := identifier, schema := schema, raw := raw,
    manifestUrl := if parsed.type = .url then some parsed.value else none }

/-- Embedding of `detectWatermark` (trustmark-service.ts, lines 43-79): the outcome of
the `executeTrustMarkDecoder` call is the parameter (`.error` models a thrown
exception carrying its message). -/
def detectWatermark (decoderOutcome : Except (List Char) TrustMarkResult) : TrustMarkResult :=
  match decoderOutcome with
  | .ok result =>
    if result.hasWatermark && result.watermarkData.isSome then
      { success := true, hasWatermark := true, watermarkData := result.watermarkData,
        error := none }
    else
      { success := true, hasWatermark := false, watermarkData := none, error := none }
  | .error msg =>
    { success := false, hasWatermark := false, watermarkData := none, error := some msg }

/-! ## Validators (src/validators.ts) -/

/-- Embedding of `validateNonEmpty` (validators.ts, lines 13-19), at `fieldName = "filePath"`:
`if (!value || value.trim().length === 0) throw Error(fieldName + " cannot be empty")`. -/
def validateNonEmpty (value : List Char) : Except (List Char) Unit :=
  if value.isEmpty || (trim value).isEmpty then .error (str "filePath cannot be empty")
  else .ok ()

/-- Embedding of `validateFilePath` (validators.ts, lines 47-58). -/
def validateFilePath (filePath : List Char) : Except (List Char) Unit :=
  match validateNonEmpty filePath with
  | .error e => .error e
  | .ok _ =>
    if strIncludes filePath [Char.ofNat 0] then
      .error (str "File path contains invalid characters")
    else .ok ()

/-- The parts of a WHATWG `URL` object this code inspects.  `new URL(...)` itself is
external; its outcome is the `urlParse` parameter of `validateUrl`. -/
structure UrlParts where
  protocol : List Char
deriving DecidableEq

/-- Embedding of `validateUrl` (validators.ts, lines 24-42).  A parse failure throws
`InvalidUrlError(urlString)` whose message is `"Invalid URL: " + urlString`; an
unsupported protocol throws `InvalidUrlError("Unsupported protocol: " + protocol)`
whose message is therefore `"Invalid URL: Unsupported protocol: " + protocol`. -/
def validateUrl (urlParse : List Char → Option UrlParts) (urlString : List Char) :
    Except (List Char) UrlParts :=
  match urlParse urlString with
  | none => .error (str "Invalid URL: " ++ urlString)
  | some url =>
    if url.protocol == str "http:" || url.protocol == str "https:" then .ok url
    else .error (str "Invalid URL: Unsupported protocol: " ++ url.protocol)

/-! ## Trust bootstrap (src/c2pa-service.ts, lines 474-523) -/

/-- A remote fetch outcome (`fetch(url).then(r => r.text())`). -/
def fetchText (outcome : Except (List Char) (List Char)) : List Char :=
  match outcome with
  | .ok text => text
  | .error _ => []

structure TrustConfigObj where
  verifyTrustList : Bool
  trustAnchors : Option (List Char)
  allowedList : Option (List Char)
  trustConfig : Option (List Char)
deriving DecidableEq

/-- The object built by `initializeTrustConfig` and handed to the verification
engine's `loadTrustConfig`: `{ verifyTrustList: true }` plus each trust document that
was fetched non-empty (`if (trustAnchors) trustConfigObj.trustAnchors = trustAnchors`,
each fetch individually defaulting to `''` via `.catch(() => '')`). -/
def initializeTrustConfig (anchorsFetch allowedFetch configFetch :
    Except (List Char) (List Char)) : TrustConfigObj :=
  let trustAnchors := fetchText anchorsFetch
  let allowedList := fetchText allowedFetch
  let trustConfig := fetchText configFetch
  { verifyTrustList := true
    trustAnchors := if !trustAnchors.isEmpty then some trustAnchors else none
    allowedList := if !allowedList.isEmpty then some allowedList else none
    trustConfig := if !trustConfig.isEmpty then some trustConfig else none }

/-- Embedding of `ensureTrustConfigured` (c2pa-service.ts, lines 474-478):
`await this.trustConfigPromise.catch(() => {})` — any bootstrap failure (including a
`loadTrustConfig` exception or a failed module import) is swallowed. -/
def ensureTrustConfigured (trustConfigOutcome : Except (List Char) Unit) : Unit :=
  match trustConfigOutcome with
  | .ok _ => ()
  | .error _ => ()

/-! ## Service layer (src/c2pa-service.ts, c2pa-node + TrustMark revision, lines 436-784) -/

/-- `NO_CREDENTIALS_INDICATORS` (src/constants.ts, line 18). -/
def NO_CREDENTIALS_INDICATORS : List (List Char) :=
  [str "No claim found", str "No manifest found"]

/-- Embedding of `hasNoCredentials` (c2pa-service.ts, lines 592-594). -/
def hasNoCredentials (output : List Char) : Bool :=
  NO_CREDENTIALS_INDICATORS.any (fun indicator => strIncludes output indicator)

/-- The `C2PAResult` record (src/types/manifest.types.ts, c2pa-node revision), with the
`rawOutput` debug field the service code still writes through conditional spreads. -/
structure C2PAResult where
  success : Bool
  hasCredentials : Bool
  manifest : Option Json
  trustMarkData : Option TrustMarkWatermarkData
  error : Option (List Char)
  rawOutput : Option (List Char)

/-- Embedding of `parseC2PAOutput` (c2pa-service.ts, lines 599-649).  `jsonParse`
models `JSON.parse` restricted to success (`some`) or a thrown `SyntaxError` (`none`). -/
def parseC2PAOutput (jsonParse : List Char → Option Json) (stdout stderr : List Char) :
    C2PAResult :=
  let output := trim stdout
  let errorOutput := trim stderr
  if hasNoCredentials output || hasNoCredentials errorOutput then
    { success := true, hasCredentials := false, manifest := none, trustMarkData := none,
      error := none, rawOutput := none }
  else if output.isEmpty then
    { success := true, hasCredentials := false, manifest := none, trustMarkData := none,
      error := none, rawOutput := none }
  else
    match jsonParse output with
    | some manifest =>
      { success := true, hasCredentials := true, manifest := some manifest,
        trustMarkData := none, error := none, rawOutput := none }
    | none =>
      { success := false, hasCredentials := false, manifest := none, trustMarkData := none,
        error := some (str "Failed to parse manifest JSON"), rawOutput := none }

/-- The external world of one `readCredentialsFromFile` call: the file system, the
c2pa-node engine call (`executeC2PANode`; `.error` carries the `C2PANodeError`
message), `JSON.parse`, and the resolution of `trustMarkService.detectWatermark`. -/
structure FileEnv where
  fileExists : Bool
  exec : Except (List Char) (List Char × List Char)
  jsonParse : List Char → Option Json
  watermark : TrustMarkResult

/-- How many times each external adapter was invoked during a run. -/
structure RunStats where
  readerCalls : Nat
  watermarkCalls : Nat
deriving DecidableEq

/-- The failure result built in the service's catch blocks:
`{ success: false, hasCredentials: false, error: errorMessage }`. -/
def failureResult (msg : List Char) : C2PAResult :=
  { success := false, hasCredentials := false, manifest := none, trustMarkData := none,
    error := some msg, rawOutput := none }

/-- `trustMarkResult.rawOutput`-style conditional spread:
`...(x && { rawOutput: x })` keeps the field only when the string is truthy. -/
def spreadRawOutput (x : Option (List Char)) : Option (List Char) :=
  match x with
  | some s => if !s.isEmpty then some s else none
  | none => none

/-- Modelled from the spec: the `errors.ts` revision defining `C2PANodeError` is not
under src/.  The spec requires every failure result to carry a human-readable message,
and every sibling error class in the available `errors.ts` prefixes its detail
(`C2PToolError` produces `"c2patool error: " + message`), so `C2PANodeError` is
modelled as prefixing the engine message the same way. -/
def c2paNodeErrorMessage (msg : List Char) : List Char :=
  str "c2pa-node error: " ++ msg

/-- Embedding of `readCredentialsFromFile` (c2pa-service.ts, lines 655-739).  The
returned `RunStats` counts the `executeC2PANode` and `detectWatermark` invocations of
the run.  `trustConfigOutcome` is the resolution of `this.trustConfigPromise`. -/
def readCredentialsFromFile (env : FileEnv) (filePath : List Char)
    (trustConfigOutcome : Except (List Char) Unit) : C2PAResult × RunStats :=
  let _ := ensureTrustConfigured trustConfigOutcome
  match validateFilePath filePath with
  | .error msg => (failureResult msg, { readerCalls := 0, watermarkCalls := 0 })
  | .ok _ =>
    if !env.fileExists then
      (failureResult (str "File not found: " ++ filePath),
       { readerCalls := 0, watermarkCalls := 0 })
    else
      match env.exec with
      | .error msg =>
        (failureResult (c2paNodeErrorMessage msg),
         { readerCalls := 1, watermarkCalls := 0 })
      | .ok (stdout, stderr) =>
        let c2paResult := parseC2PAOutput env.jsonParse stdout stderr
        if c2paResult.hasCredentials then
          (c2paResult, { readerCalls := 1, watermarkCalls := 0 })
        else
          let trustMarkResult := env.watermark
          if trustMarkResult.hasWatermark && trustMarkResult.watermarkData.isSome then
            ({ success := true, hasCredentials := true, manifest := none,
               trustMarkData := trustMarkResult.watermarkData, error := none,
               rawOutput := spreadRawOutput c2paResult.rawOutput },
             { readerCalls := 1, watermarkCalls := 1 })
          else
            ({ success := true, hasCredentials := false, manifest := none,
               trustMarkData := none, error := none,
               rawOutput := spreadRawOutput c2paResult.rawOutput },
             { readerCalls := 1, watermarkCalls := 1 })

/-- Outcome of `downloadFile` (src/file-utils.ts, lines 46-95): the temp path on
success, or one of its two typed errors whose messages are built from the URL. -/
inductive DownloadOutcome where
  | ok (tempPath : List Char)
  | httpError
  | timeout

/-- The external world of one `readCredentialsFromUrl` call. -/
structure UrlEnv where
  urlParse : List Char → Option UrlParts
  download : DownloadOutcome
  fileEnv : FileEnv

/-- Embedding of `readCredentialsFromUrl` (c2pa-service.ts, lines 744-777). -/
def readCredentialsFromUrl (env : UrlEnv) (url : List Char)
    (trustConfigOutcome : Except (List Char) Unit) : C2PAResult × RunStats :=
  match validateUrl env.urlParse url with
  | .error msg => (failureResult msg, { readerCalls := 0, watermarkCalls := 0 })
  | .ok _ =>
    match env.download with
    | .httpError =>
      (failureResult (str "Failed to download file from URL: " ++ url),
       { readerCalls := 0, watermarkCalls := 0 })
    | .timeout =>
      (failureResult (str "Download timeout after 30000ms for URL: " ++ url),
       { readerCalls := 0, watermarkCalls := 0 })
    | .ok tempPath => readCredentialsFromFile env.fileEnv tempPath trustConfigOutcome

/-! ## Claim theorems -/

/-- Sentinel occurrences survive the `trim` applied inside `parseC2PAOutput`. -/
theorem hasNoCredentials_trim {s : List Char}
    (h : strIncludes s (str "No claim found") = true ∨
         strIncludes s (str "No manifest found") = true) :
    hasNoCredentials (trim s) = true := by
  rcases h with h | h
  · have h1 : (str "No claim found").head? = some 'N' := rfl
    have h2 : (str "No claim found").getLast? = some 'd' := by decide
    have ht := strIncludes_trim h1 (by decide) h2 (by decide) h
    simp [hasNoCredentials, NO_CREDENTIALS_INDICATORS, ht]
  · have h1 : (str "No manifest found").head? = some 'N' := rfl
    have h2 : (str "No manifest found").getLast? = some 'd' := by decide
    have ht := strIncludes_trim h1 (by decide) h2 (by decide) h
    simp [hasNoCredentials, NO_CREDENTIALS_INDICATORS, ht]

/-- Claim C2: any reader output pair in which either stream contains the exact
substring "No claim found" or "No manifest found" — anywhere, even surrounded by other
content — is classified by `parseC2PAOutput` as success with no embedded credentials;
and the probe string "claim found" (missing the leading "No") is never classified that
way, whatever `JSON.parse` does. -/
theorem c2_sentinel_classification :
    (∀ (jsonParse : List Char → Option Json) (stdout stderr : List Char),
      (strIncludes stdout (str "No claim found") = true ∨
       strIncludes stdout (str "No manifest found") = true ∨
       strIncludes stderr (str "No claim found") = true ∨
       strIncludes stderr (str "No manifest found") = true) →
      parseC2PAOutput jsonParse stdout stderr =
        { success := true, hasCredentials := false, manifest := none,
          trustMarkData := none, error := none, rawOutput := none }) ∧
    (∀ jsonParse : List Char → Option Json,
      ¬((parseC2PAOutput jsonParse (str "claim found") (str "")).success = true ∧
        (parseC2PAOutput jsonParse (str "claim found") (str "")).hasCredentials = false)) := by
  constructor
  · intro jsonParse stdout stderr h
    have hcond : (hasNoCredentials (trim stdout) || hasNoCredentials (trim stderr)) = true := by
      rcases h with h | h | h | h
      · rw [hasNoCredentials_trim (Or.inl h)]; rfl
      · rw [hasNoCredentials_trim (Or.inr h)]; rfl
      · rw [hasNoCredentials_trim (Or.inl h)]; simp
      · rw [hasNoCredentials_trim (Or.inr h)]; simp
    simp only [parseC2PAOutput, hcond, if_true]
  · intro jsonParse
    have hns : (hasNoCredentials (trim (str "claim found")) ||
                hasNoCredentials (trim (str ""))) = false := by decide
    have hne : (trim (str "claim found")).isEmpty = false := by decide
    simp only [parseC2PAOutput, hns, hne, Bool.false_eq_true, if_false]
    cases hjp : jsonParse (trim (str "claim found")) with
    | some m => simp
    | none => simp

/-- Witness for C2 at a concrete input: "xx No claim found yy" on stdout classifies as
success with no credentials. -/
theorem c2_witness :
    parseC2PAOutput (fun _ => none) (str "xx No claim found yy") (str "") =
      { success := true, hasCredentials := false, manifest := none,
        trustMarkData := none, error := none, rawOutput := none } :=
  (c2_sentinel_classification).1 (fun _ => none) (str "xx No claim found yy") (str "")
    (Or.inl (by decide))

/-- The embedded-stage parser never attaches watermark data. -/
theorem parseC2PAOutput_trustMarkData_none (jsonParse : List Char → Option Json)
    (stdout stderr : List Char) :
    (parseC2PAOutput jsonParse stdout stderr).trustMarkData = none := by
  simp only [parseC2PAOutput]
  split
  · rfl
  · split
    · rfl
    · split <;> rfl

/-- Claim C1: whenever the embedded stage reports credentials found, the pipeline
returns that embedded result with zero watermark-decoder calls; and no result the
pipeline ever returns carries both an embedded manifest and watermark data. -/
theorem c1_embedded_skips_watermark :
    (∀ (env : FileEnv) (filePath : List Char) (t : Except (List Char) Unit)
       (stdout stderr : List Char),
      validateFilePath filePath = .ok () →
      env.fileExists = true →
      env.exec = .ok (stdout, stderr) →
      (parseC2PAOutput env.jsonParse stdout stderr).hasCredentials = true →
      (readCredentialsFromFile env filePath t).2.watermarkCalls = 0 ∧
      (readCredentialsFromFile env filePath t).1 =
        parseC2PAOutput env.jsonParse stdout stderr) ∧
    (∀ (env : FileEnv) (filePath : List Char) (t : Except (List Char) Unit),
      (readCredentialsFromFile env filePath t).1.manifest = none ∨
      (readCredentialsFromFile env filePath t).1.trustMarkData = none) := by
  constructor
  · intro env filePath t stdout stderr hv hf he hp
    have hrun : readCredentialsFromFile env filePath t =
        (parseC2PAOutput env.jsonParse stdout stderr,
         { readerCalls := 1, watermarkCalls := 0 }) := by
      simp only [readCredentialsFromFile, hv, hf, he, hp, Bool.not_true, Bool.false_eq_true,
        if_false, if_true]
    rw [hrun]
    exact ⟨rfl, rfl⟩
  · intro env filePath t
    simp only [readCredentialsFromFile]
    split
    · left; rfl
    · split
      · left; rfl
      · split
        · left; rfl
        · split
          · right
            exact parseC2PAOutput_trustMarkData_none _ _ _
          · split
            · left; rfl
            · left; rfl

/-- Concrete environment in which the embedded stage finds a manifest while a
watermark would also have been decodable. -/
def c1Env : FileEnv :=
  { fileExists := true
    exec := .ok (str "{}", str "")
    jsonParse := fun _ => some (.obj [])
    watermark :=
      { success := true, hasWatermark := true
        watermarkData := some { identifier := str "id", schema := str "BCH_5",
                                raw := str "0", manifestUrl := none }
        error := none } }

/-- Witness for C1: in `c1Env` the watermark decoder is not consulted and the embedded
result is returned unchanged. -/
theorem c1_witness :
    (readCredentialsFromFile c1Env (str "a.jpg") (.ok ())).2.watermarkCalls = 0 ∧
    (readCredentialsFromFile c1Env (str "a.jpg") (.ok ())).1 =
      parseC2PAOutput c1Env.jsonParse (str "{}") (str "") :=
  (c1_embedded_skips_watermark).1 c1Env (str "a.jpg") (.ok ()) (str "{}") (str "")
    rfl rfl rfl rfl

/-- Claim C3: when the embedded stage finds nothing and the watermark decoder fails
with an execution error (the decoder adapter resolves to success = false with an error
message), the pipeline still returns the success/no-credentials result — identical to
the genuine "no watermark found" outcome — and the decoder's error text never reaches
the returned result's error field. -/
theorem c3_decoder_failure_degrades :
    ∀ (env : FileEnv) (filePath : List Char) (t : Except (List Char) Unit)
      (stdout stderr errMsg : List Char),
      validateFilePath filePath = .ok () →
      env.fileExists = true →
      env.exec = .ok (stdout, stderr) →
      parseC2PAOutput env.jsonParse stdout stderr =
        { success := true, hasCredentials := false, manifest := none,
          trustMarkData := none, error := none, rawOutput := none } →
      env.watermark = detectWatermark (.error errMsg) →
      env.watermark.success = false ∧
      env.watermark.error = some errMsg ∧
      (readCredentialsFromFile env filePath t).1 =
        { success := true, hasCredentials := false, manifest := none,
          trustMarkData := none, error := none, rawOutput := none } ∧
      (readCredentialsFromFile env filePath t).1 =
        (readCredentialsFromFile
          { env with watermark := detectWatermark (.ok
              { success := true, hasWatermark := false, watermarkData := none,
                error := none }) } filePath t).1 := by
  intro env filePath t stdout stderr errMsg hv hf he hp hw
  refine ⟨by rw [hw]; rfl, by rw [hw]; rfl, ?_, ?_⟩
  · simp only [readCredentialsFromFile, hv, hf, he, hp, hw, detectWatermark,
      Bool.not_true, Bool.false_eq_true, if_false, Bool.false_and, spreadRawOutput]
  · simp only [readCredentialsFromFile, hv, hf, he, hp, hw, detectWatermark,
      Bool.not_true, Bool.false_eq_true, if_false, Bool.false_and, spreadRawOutput]

/-- Concrete environment for C3: reader reports "No manifest found", decoder throws
"model not found". -/
def c3Env : FileEnv :=
  { fileExists := true
    exec := .ok (str "", str "No manifest found")
    jsonParse := fun _ => none
    watermark := detectWatermark (.error (str "model not found")) }

/-- Witness for C3 at the concrete environment. -/
theorem c3_witness :
    c3Env.watermark.success = false ∧
    c3Env.watermark.error = some (str "model not found") ∧
    (readCredentialsFromFile c3Env (str "a.jpg") (.ok ())).1 =
      { success := true, hasCredentials := false, manifest := none,
        trustMarkData := none, error := none, rawOutput := none } ∧
    (readCredentialsFromFile c3Env (str "a.jpg") (.ok ())).1 =
      (readCredentialsFromFile
        { c3Env with watermark := detectWatermark (.ok
            { success := true, hasWatermark := false, watermarkData := none,
              error := none }) } (str "a.jpg") (.ok ())).1 :=
  c3_decoder_failure_degrades c3Env (str "a.jpg") (.ok ()) (str "") (str "No manifest found")
    (str "model not found") rfl rfl rfl rfl rfl

/-- Claim C4: every input failing validation before the embedded check — empty path,
path with a null byte, missing file, or a URL with a protocol other than http/https —
yields a failure result (success = false, carrying the human-readable message) and
consults neither the manifest reader nor the watermark decoder; such a failure result
is distinct from the not-found result since its success flag is false. -/
theorem c4_input_errors_short_circuit :
    (∀ (env : FileEnv) (t : Except (List Char) Unit),
      readCredentialsFromFile env (str "") t =
        (failureResult (str "filePath cannot be empty"),
         { readerCalls := 0, watermarkCalls := 0 })) ∧
    (∀ (env : FileEnv) (filePath : List Char) (t : Except (List Char) Unit),
      strIncludes filePath [Char.ofNat 0] = true →
      readCredentialsFromFile env filePath t =
        (failureResult (str "File path contains invalid characters"),
         { readerCalls := 0, watermarkCalls := 0 })) ∧
    (∀ (env : FileEnv) (filePath : List Char) (t : Except (List Char) Unit),
      validateFilePath filePath = .ok () →
      env.fileExists = false →
      readCredentialsFromFile env filePath t =
        (failureResult (str "File not found: " ++ filePath),
         { readerCalls := 0, watermarkCalls := 0 })) ∧
    (∀ (env : UrlEnv) (url : List Char) (u : UrlParts) (t : Except (List Char) Unit),
      env.urlParse url = some u →
      (u.protocol == str "http:") = false →
      (u.protocol == str "https:") = false →
      readCredentialsFromUrl env url t =
        (failureResult (str "Invalid URL: Unsupported protocol: " ++ u.protocol),
         { readerCalls := 0, watermarkCalls := 0 })) ∧
    (∀ msg : List Char,
      (failureResult msg).success = false ∧ (failureResult msg).hasCredentials = false ∧
      (failureResult msg).error = some msg) := by
  refine ⟨?_, ?_, ?_, ?_, ?_⟩
  · intro env t
    rfl
  · intro env filePath t h
    have hne : filePath ≠ [] := by
      intro hnil
      rw [hnil] at h
      simp [strIncludes, strStartsWith] at h
    have htrim : trim filePath ≠ [] := trim_ne_nil_of_includes (by decide) h
    have h1 : filePath.isEmpty = false := by
      cases filePath with
      | nil => exact absurd rfl hne
      | cons a b => rfl
    have h2 : (trim filePath).isEmpty = false := by
      cases hcase : trim filePath with
      | nil => exact absurd hcase htrim
      | cons a b => rfl
    have hvalid : validateFilePath filePath =
        .error (str "File path contains invalid characters") := by
      unfold validateFilePath validateNonEmpty
      simp only [h1, h2, Bool.or_self, Bool.false_eq_true, if_false, h, if_true]
    simp only [readCredentialsFromFile, hvalid]
  · intro env filePath t hv hf
    simp only [readCredentialsFromFile, hv, hf, Bool.not_false, if_true]
  · intro env url u t hu h1 h2
    have hvalid : validateUrl env.urlParse url =
        .error (str "Invalid URL: Unsupported protocol: " ++ u.protocol) := by
      unfold validateUrl
      rw [hu]
      simp only [h1, h2, Bool.or_self, Bool.false_eq_true, if_false]
    simp only [readCredentialsFromUrl, hvalid]
  · intro msg
    exact ⟨rfl, rfl, rfl⟩

/-- Witness for C4: each validation failure at a concrete input. -/
theorem c4_witness :
    (readCredentialsFromFile c1Env (str "") (.ok ()) =
      (failureResult (str "filePath cannot be empty"),
       { readerCalls := 0, watermarkCalls := 0 })) ∧
    (readCredentialsFromFile c1Env (str "a" ++ [Char.ofNat 0] ++ str "b") (.ok ()) =
      (failureResult (str "File path contains invalid characters"),
       { readerCalls := 0, watermarkCalls := 0 })) ∧
    (readCredentialsFromFile
        { c1Env with fileExists := false } (str "missing.jpg") (.ok ()) =
      (failureResult (str "File not found: " ++ str "missing.jpg"),
       { readerCalls := 0, watermarkCalls := 0 })) ∧
    (readCredentialsFromUrl
        { urlParse := fun _ => some { protocol := str "ftp:" }, download := .httpError,
          fileEnv := c1Env } (str "ftp://x/y.jpg") (.ok ()) =
      (failureResult (str "Invalid URL: Unsupported protocol: " ++ str "ftp:"),
       { readerCalls := 0, watermarkCalls := 0 })) := by
  refine ⟨?_, ?_, ?_, ?_⟩
  · exact c4_input_errors_short_circuit.1 c1Env (.ok ())
  · exact c4_input_errors_short_circuit.2.1 c1Env _ (.ok ()) (by decide)
  · exact c4_input_errors_short_circuit.2.2.1 _ (str "missing.jpg") (.ok ()) rfl rfl
  · exact c4_input_errors_short_circuit.2.2.2.1 _ (str "ftp://x/y.jpg")
      { protocol := str "ftp:" } (.ok ()) rfl rfl rfl

/-- Claim C5: the trust bootstrap never blocks or fails a read — the result of
`readCredentialsFromFile` is the same whatever the trust-configuration attempt's
outcome — and the trust-config object passed to the verification engine includes each
of the three documents independently: exactly the ones fetched non-empty, a failed
fetch for one never affecting the other two. -/
theorem c5_trust_bootstrap_nonblocking :
    (∀ (env : FileEnv) (filePath : List Char) (t1 t2 : Except (List Char) Unit),
      readCredentialsFromFile env filePath t1 = readCredentialsFromFile env filePath t2) ∧
    (∀ anchorsFetch allowedFetch configFetch : Except (List Char) (List Char),
      (initializeTrustConfig anchorsFetch allowedFetch configFetch).verifyTrustList = true ∧
      (initializeTrustConfig anchorsFetch allowedFetch configFetch).trustAnchors =
        (match anchorsFetch with
         | .ok s => if !s.isEmpty then some s else none
         | .error _ => none) ∧
      (initializeTrustConfig anchorsFetch allowedFetch configFetch).allowedList =
        (match allowedFetch with
         | .ok s => if !s.isEmpty then some s else none
         | .error _ => none) ∧
      (initializeTrustConfig anchorsFetch allowedFetch configFetch).trustConfig =
        (match configFetch with
         | .ok s => if !s.isEmpty then some s else none
         | .error _ => none)) := by
  constructor
  · intro env filePath t1 t2
    rfl
  · intro anchorsFetch allowedFetch configFetch
    refine ⟨rfl, ?_, ?_, ?_⟩
    · cases anchorsFetch <;> rfl
    · cases allowedFetch <;> rfl
    · cases configFetch <;> rfl

/-- Claim C8: a decoded watermark payload's `manifestUrl` is present iff the decoded
identifier is an absolute http/https URL (the `startsWith` classification of
`parseTrustMarkIdentifier`), and when present it equals the identifier exactly. -/
theorem c8_manifest_url_iff_absolute :
    ∀ identifier schema raw : List Char,
      ((decodeWatermarkPayload identifier schema raw).manifestUrl.isSome = true ↔
        (strStartsWith identifier (str "http://") ||
         strStartsWith identifier (str "https://")) = true) ∧
      (∀ u, (decodeWatermarkPayload identifier schema raw).manifestUrl = some u →
        u = identifier) := by
  intro identifier schema raw
  unfold decodeWatermarkPayload parseTrustMarkIdentifier
  by_cases hc : (strStartsWith identifier (str "http://") ||
      strStartsWith identifier (str "https://")) = true
  · simp only [hc, if_true]
    constructor
    · simp
    · intro u hu
      simp only [reduceCtorEq, reduceIte, Option.some.injEq] at hu
      · exact hu.symm
  · rw [Bool.not_eq_true] at hc
    simp only [hc, Bool.false_eq_true, if_false]
    constructor
    · constructor
      · intro h
        exfalso
        revert h
        split <;> simp
      · intro h
        simp at h
    · intro u hu
      exfalso
      revert hu
      split <;> simp

/-- Witness for C8: a URL identifier populates `manifestUrl` with itself; a plain
identifier leaves it absent. -/
theorem c8_witness :
    ((decodeWatermarkPayload (str "https://example.com/m") (str "BCH_5")
        (str "0")).manifestUrl.isSome = true) ∧
    (str "https://example.com/m" = str "https://example.com/m") ∧
    ((decodeWatermarkPayload (str "registry-abc") (str "BCH_5")
        (str "0")).manifestUrl.isSome = false) := by
  refine ⟨?_, ?_, ?_⟩
  · exact (c8_manifest_url_iff_absolute (str "https://example.com/m") (str "BCH_5")
      (str "0")).1.mpr (by decide)
  · exact (c8_manifest_url_iff_absolute (str "https://example.com/m") (str "BCH_5")
      (str "0")).2 (str "https://example.com/m") (by decide)  ▸ rfl
  · have h := (c8_manifest_url_iff_absolute (str "registry-abc") (str "BCH_5") (str "0")).1
    rw [Bool.eq_false_iff]
    intro hs
    have := h.mp hs
    simp [str, strStartsWith] at this

theorem append_ne_nil_left {a b : List Char} (h : a ≠ []) : a ++ b ≠ [] := by
  cases a with
  | nil => exact absurd rfl h
  | cons c t => simp

/-- Every error `validateFilePath` can throw carries a nonempty message. -/
theorem validateFilePath_error_nonempty {p m : List Char}
    (h : validateFilePath p = .error m) : m ≠ [] := by
  unfold validateFilePath validateNonEmpty at h
  by_cases h1 : (p.isEmpty || (trim p).isEmpty) = true
  · rw [if_pos h1] at h
    simp only [Except.error.injEq] at h
    rw [← h]
    decide
  · rw [if_neg h1] at h
    by_cases h2 : strIncludes p [Char.ofNat 0] = true
    · simp only [h2, if_true, Except.error.injEq] at h
      rw [← h]
      decide
    · simp only [h2, Bool.false_eq_true, if_false] at h
      simp at h

/-- Every error `validateUrl` can throw carries a nonempty message. -/
theorem validateUrl_error_nonempty {urlParse : List Char → Option UrlParts}
    {url m : List Char} (h : validateUrl urlParse url = .error m) : m ≠ [] := by
  unfold validateUrl at h
  cases hu : urlParse url with
  | none =>
    rw [hu] at h
    simp only [Except.error.injEq] at h
    rw [← h]
    exact append_ne_nil_left (by decide)
  | some u =>
    rw [hu] at h
    dsimp only at h
    by_cases hp : (u.protocol == str "http:" || u.protocol == str "https:") = true
    · rw [if_pos hp] at h
      simp at h
    · rw [if_neg hp] at h
      simp only [Except.error.injEq] at h
      rw [← h]
      exact append_ne_nil_left (by decide)

/-- An embedded-stage result that reports credentials found reports success. -/
theorem parseC2PAOutput_hasCredentials_success (jsonParse : List Char → Option Json)
    (stdout stderr : List Char)
    (h : (parseC2PAOutput jsonParse stdout stderr).hasCredentials = true) :
    (parseC2PAOutput jsonParse stdout stderr).success = true := by
  revert h
  simp only [parseC2PAOutput]
  split
  · intro h; simp at h
  · split
    · intro h; simp at h
    · split
      · intro _; rfl
      · intro h; simp at h

/-- A failed `readCredentialsFromFile` run reports no credentials and a nonempty
error message. -/
theorem readCredentialsFromFile_failure (env : FileEnv) (filePath : List Char)
    (t : Except (List Char) Unit)
    (h : (readCredentialsFromFile env filePath t).1.success = false) :
    (readCredentialsFromFile env filePath t).1.hasCredentials = false ∧
    ∃ m, (readCredentialsFromFile env filePath t).1.error = some m ∧ m ≠ [] := by
  revert h
  simp only [readCredentialsFromFile]
  split
  · rename_i msg heq
    intro _
    exact ⟨rfl, msg, rfl, validateFilePath_error_nonempty heq⟩
  · split
    · intro _
      exact ⟨rfl, str "File not found: " ++ filePath, rfl,
        append_ne_nil_left (by decide)⟩
    · split
      · rename_i msg heq
        intro _
        exact ⟨rfl, c2paNodeErrorMessage msg, rfl, append_ne_nil_left (by decide)⟩
      · split
        · rename_i hp
          intro h
          have hs := parseC2PAOutput_hasCredentials_success env.jsonParse _ _ hp
          rw [hs] at h
          exact absurd h (by simp)
        · split
          · intro h; simp at h
          · intro h; simp at h

/-- Claim C10: `readCredentialsFromFile` and `readCredentialsFromUrl` are total — every
run produces a `C2PAResult` (the embeddings return one for every environment) — and
whenever a returned result has success = false, it has hasCredentials = false and
carries a nonempty error message converted from the internal exception. -/
theorem c10_failures_never_escape :
    ∀ (env : FileEnv) (uenv : UrlEnv) (filePath url : List Char)
      (t t2 : Except (List Char) Unit),
      ((readCredentialsFromFile env filePath t).1.success = false →
        (readCredentialsFromFile env filePath t).1.hasCredentials = false ∧
        ∃ m, (readCredentialsFromFile env filePath t).1.error = some m ∧ m ≠ []) ∧
      ((readCredentialsFromUrl uenv url t2).1.success = false →
        (readCredentialsFromUrl uenv url t2).1.hasCredentials = false ∧
        ∃ m, (readCredentialsFromUrl uenv url t2).1.error = some m ∧ m ≠ []) := by
  intro env uenv filePath url t t2
  refine ⟨readCredentialsFromFile_failure env filePath t, ?_⟩
  revert uenv
  intro uenv
  show (readCredentialsFromUrl uenv url t2).1.success = false → _
  simp only [readCredentialsFromUrl]
  split
  · rename_i msg heq
    intro _
    exact ⟨rfl, msg, rfl, validateUrl_error_nonempty heq⟩
  · split
    · intro _
      exact ⟨rfl, str "Failed to download file from URL: " ++ url, rfl,
        append_ne_nil_left (by decide)⟩
    · intro _
      exact ⟨rfl, str "Download timeout after 30000ms for URL: " ++ url, rfl,
        append_ne_nil_left (by decide)⟩
    · rename_i tempPath heq
      exact readCredentialsFromFile_failure uenv.fileEnv tempPath t2

/-- Witness for C10 at concrete failing runs: an empty path and an unparsable URL. -/
theorem c10_witness :
    ((readCredentialsFromFile c1Env (str "") (.ok ())).1.hasCredentials = false ∧
      ∃ m, (readCredentialsFromFile c1Env (str "") (.ok ())).1.error = some m ∧ m ≠ []) ∧
    ((readCredentialsFromUrl
        { urlParse := fun _ => none, download := .httpError, fileEnv := c1Env }
        (str "not a url") (.ok ())).1.hasCredentials = false ∧
      ∃ m, (readCredentialsFromUrl
        { urlParse := fun _ => none, download := .httpError, fileEnv := c1Env }
        (str "not a url") (.ok ())).1.error = some m ∧ m ≠ []) := by
  have h := c10_failures_never_escape c1Env
    { urlParse := fun _ => none, download := .httpError, fileEnv := c1Env }
    (str "") (str "not a url") (.ok ()) (.ok ())
  exact ⟨h.1 rfl, h.2 rfl⟩

/-! ## C6: action extraction specification and proofs -/

/-- The claim's per-entry mapping, written from its words (with the amendment the
code forces: the entry's action field must be a non-empty string — JavaScript
truthiness of `actionStr` — for a ContentAction to be emitted). -/
def actionEntrySpec (actionItem : Json) : Option ContentAction :=
  if jsTruthy actionItem && isObjLike actionItem then
    match asString (actionItem.getField (str "action")) with
    | some a =>
      if !a.isEmpty then
        some { action := a
               softwareAgent := asString (actionItem.getField (str "softwareAgent"))
               when := asString (actionItem.getField (str "when"))
               parameters :=
                 match actionItem.getField (str "parameters") with
                 | some p => if jsTruthy p && isObjLike p then some p else none
                 | none => none }
      else none
    | none => none
  else none

/-- An assertion the scan treats as an actions assertion. -/
def isActionsAssertion (assertion : Json) : Bool :=
  (jsTruthy assertion && isObjLike assertion) &&
  (match asString (assertion.getField (str "label")) with
   | some l => l == str "c2pa.actions.v2"
   | none => false) &&
  jsTruthyOpt (assertion.getField (str "data")) &&
  isObjLikeOpt (assertion.getField (str "data"))

/-- The action entries of an assertion's data. -/
def assertionActionItems (assertion : Json) : List Json :=
  match assertion.getField (str "data") with
  | some data =>
    match data.getField (str "actions") with
    | some (.arr items) => items
    | _ => []
  | none => []

/-- The C6 specification of action extraction: per actions-assertion, one
`ContentAction` per qualifying entry, in exactly the source array order. -/
def parseActionsSpec (manifest : Json) : List ContentAction :=
  match manifest.getField (str "assertions") with
  | some (.arr assertions) =>
    assertions.foldr
      (fun assertion acc =>
        (if isActionsAssertion assertion then
          (assertionActionItems assertion).filterMap actionEntrySpec
         else []) ++ acc) []
  | _ => []

theorem foldl_push_eq_filterMap {α β : Type} (f : α → Option β)
    (body : List β → α → List β)
    (hbody : ∀ acc x, body acc x = acc ++ (f x).toList)
    (l : List α) (init : List β) :
    l.foldl body init = init ++ l.filterMap f := by
  induction l generalizing init with
  | nil => simp
  | cons x xs ih =>
    rw [List.foldl_cons, hbody, ih]
    cases hf : f x <;> simp [hf, List.filterMap_cons]

theorem foldl_append_eq_foldr {α β : Type} (g : α → List β)
    (body : List β → α → List β)
    (hbody : ∀ acc x, body acc x = acc ++ g x)
    (l : List α) (init : List β) :
    l.foldl body init = init ++ l.foldr (fun x acc => g x ++ acc) [] := by
  induction l generalizing init with
  | nil => simp
  | cons x xs ih =>
    rw [List.foldl_cons, hbody, ih, List.foldr_cons]
    simp [List.append_assoc]

/-- Pointwise shape of the action-item loop body of `parseActions`. -/
theorem parseActions_item_step (acc2 : List ContentAction) (actionItem : Json) :
    (if jsTruthy actionItem && isObjLike actionItem then
       match asString (actionItem.getField (str "action")) with
       | some a =>
         if !a.isEmpty then
           acc2 ++ [{ action := a
                      softwareAgent := asString (actionItem.getField (str "softwareAgent"))
                      when := asString (actionItem.getField (str "when"))
                      parameters :=
                        match actionItem.getField (str "parameters") with
                        | some p => if jsTruthy p && isObjLike p then some p else none
                        | none => none }]
         else acc2
       | none => acc2
     else acc2) =
    acc2 ++ (actionEntrySpec actionItem).toList := by
  unfold actionEntrySpec
  by_cases hi : (jsTruthy actionItem && isObjLike actionItem) = true
  · simp only [hi, if_true]
    cases ha : asString (actionItem.getField (str "action")) with
    | none => simp
    | some a =>
      by_cases he : (!a.isEmpty) = true
      · simp only [he, if_true, Option.toList_some]
      · simp only [he, Bool.false_eq_true, if_false, Option.toList_none, List.append_nil]
  · simp only [hi, Bool.false_eq_true, if_false, Option.toList_none, List.append_nil]

/-- Pointwise shape of the assertion loop body of `parseActions`. -/
theorem parseActions_assertion_step (acc : List ContentAction) (assertion : Json) :
    (if jsTruthy assertion && isObjLike assertion then
       let labelOk :=
         match asString (assertion.getField (str "label")) with
         | some l => l == str "c2pa.actions.v2"
         | none => false
       if labelOk && jsTruthyOpt (assertion.getField (str "data")) &&
          isObjLikeOpt (assertion.getField (str "data")) then
         match assertion.getField (str "data") with
         | some data =>
           match data.getField (str "actions") with
           | some (.arr actionsArray) =>
             actionsArray.foldl
               (fun acc2 actionItem =>
                 if jsTruthy actionItem && isObjLike actionItem then
                   match asString (actionItem.getField (str "action")) with
                   | some a =>
                     if !a.isEmpty then
                       acc2 ++ [{ action := a
                                  softwareAgent :=
                                    asString (actionItem.getField (str "softwareAgent"))
                                  when := asString (actionItem.getField (str "when"))
                                  parameters :=
                                    match actionItem.getField (str "parameters") with
                                    | some p =>
                                      if jsTruthy p && isObjLike p then some p else none
                                    | none => none }]
                     else acc2
                   | none => acc2
                 else acc2) acc
           | _ => acc
         | none => acc
       else acc
     else acc) =
    acc ++ (if isActionsAssertion assertion then
             (assertionActionItems assertion).filterMap actionEntrySpec
            else []) := by
  by_cases h1 : (jsTruthy assertion && isObjLike assertion) = true
  · simp only [h1, if_true]
    by_cases h2 : ((match asString (assertion.getField (str "label")) with
                    | some l => l == str "c2pa.actions.v2"
                    | none => false) &&
                   jsTruthyOpt (assertion.getField (str "data")) &&
                   isObjLikeOpt (assertion.getField (str "data"))) = true
    · have hact : isActionsAssertion assertion = true := by
        unfold isActionsAssertion
        simp only [Bool.and_eq_true] at h1 h2 ⊢
        exact ⟨⟨⟨h1, h2.1.1⟩, h2.1.2⟩, h2.2⟩
      simp only [h2, if_true, hact]
      cases hd : assertion.getField (str "data") with
      | none =>
        exfalso
        simp only [Bool.and_eq_true] at h2
        have := h2.1.2
        rw [hd] at this
        simp [jsTruthyOpt] at this
      | some data =>
        unfold assertionActionItems
        rw [hd]
        dsimp only
        cases hda : data.getField (str "actions") with
        | none => simp
        | some j =>
          cases j with
          | arr actionsArray =>
            dsimp only
            exact foldl_push_eq_filterMap actionEntrySpec _
              parseActions_item_step actionsArray acc
          | null => simp
          | bool b => simp
          | num n => simp
          | str s => simp
          | obj fields => simp
    · have hact : isActionsAssertion assertion = false := by
        rw [Bool.eq_false_iff]
        intro hcontra
        apply h2
        unfold isActionsAssertion at hcontra
        simp only [Bool.and_eq_true] at hcontra ⊢
        exact ⟨⟨hcontra.1.1.2, hcontra.1.2⟩, hcontra.2⟩
      simp only [h2, Bool.false_eq_true, if_false, hact, List.append_nil]
  · have hact : isActionsAssertion assertion = false := by
      rw [Bool.eq_false_iff]
      intro hcontra
      apply h1
      unfold isActionsAssertion at hcontra
      simp only [Bool.and_eq_true] at hcontra
      simp only [Bool.and_eq_true]
      exact hcontra.1.1.1
    simp only [h1, Bool.false_eq_true, if_false, hact, List.append_nil]

/-- The claim's scenario: one actions-assertion holding a `created` action with a
software agent followed by an `opened` action with no agent. -/
def c6ScenarioManifest : Json :=
  .obj [(str "assertions", .arr [
    .obj [(str "label", .str (str "c2pa.actions.v2")),
          (str "data", .obj [(str "actions", .arr [
            .obj [(str "action", .str (str "c2pa.created")),
                  (str "softwareAgent", .str (str "TestEditor 1.0"))],
            .obj [(str "action", .str (str "c2pa.opened"))]])])]])]

/-- Claim C6 (amended: an entry's action field must be a non-empty string — the code's
JavaScript truthiness check skips an entry whose action is the empty string):
`parseActions` emits one ContentAction per qualifying entry in exactly the source
array order with no sorting, softwareAgent present exactly when the entry carries a
softwareAgent string; on the claim's two-action scenario the output is the two
ContentActions in order with the second one's softwareAgent absent. -/
theorem c6_actions_per_entry_in_order :
    (∀ manifest : Json, parseActions manifest = parseActionsSpec manifest) ∧
    parseActions c6ScenarioManifest =
      [{ action := str "c2pa.created", softwareAgent := some (str "TestEditor 1.0"),
         when := none, parameters := none },
       { action := str "c2pa.opened", softwareAgent := none, when := none,
         parameters := none }] := by
  constructor
  · intro manifest
    unfold parseActions parseActionsSpec
    cases hA : manifest.getField (str "assertions") with
    | none => rfl
    | some j =>
      cases j with
      | arr assertions =>
        dsimp only
        rw [foldl_append_eq_foldr _ _ parseActions_assertion_step assertions []]
        rw [List.nil_append]
      | null => rfl
      | bool b => rfl
      | num n => rfl
      | str s => rfl
      | obj fields => rfl
  · rfl

/-- A structured manifest whose single actions-assertion holds one entry whose action
field is the string "" — a string, but falsy in JavaScript. -/
def c6EmptyActionManifest : Json :=
  .obj [(str "assertions", .arr [
    .obj [(str "label", .str (str "c2pa.actions.v2")),
          (str "data", .obj [(str "actions", .arr [
            .obj [(str "action", .str (str ""))]])])]])]

/-- Count of action entries whose action field is a string — the claim's "per entry
whose action field is a string" precondition. -/
def stringActionEntryCount (manifest : Json) : Nat :=
  match manifest.getField (str "assertions") with
  | some (.arr assertions) =>
    assertions.foldr
      (fun assertion acc =>
        (if isActionsAssertion assertion then
          ((assertionActionItems assertion).filter
            (fun item => (asString (item.getField (str "action"))).isSome)).length
         else 0) + acc) 0
  | _ => 0

/-- Counterexample to C6 as stated: `c6EmptyActionManifest` has exactly one action
entry whose action field is a string, yet `parseActions` emits no ContentAction for
it (the claim requires one ContentAction per such entry). -/
theorem c6_counterexample :
    stringActionEntryCount c6EmptyActionManifest = 1 ∧
    parseActions c6EmptyActionManifest = [] := by
  exact ⟨rfl, rfl⟩

/-- C7 input where the "name:" line follows the LinkedIn mention (39 characters
later, well inside the claim's 150-character window). -/
def c7NameAfterText : List Char :=
  str "LinkedIn: https://linkedin.com/in/jdoe\nname: Jane Doe"

/-- C7 input where the "name:" line precedes the LinkedIn mention. -/
def c7NameBeforeText : List Char :=
  str "name: Jane Doe\nLinkedIn: https://linkedin.com/in/jdoe"

/-- Counterexample to C7 as stated: `c7NameAfterText` contains the exact substring
"LinkedIn: https://linkedin.com/in/jdoe" and, within 150 characters of it, the line
"name: Jane Doe", yet the first creator identity's name is the username "jdoe", not
"Jane Doe" — the pairing regex only matches when a name label precedes the text
reaching the LinkedIn mention. -/
theorem c7_counterexample :
    strIncludes c7NameAfterText (str "LinkedIn: https://linkedin.com/in/jdoe") = true ∧
    strIncludes c7NameAfterText (str "name: Jane Doe") = true ∧
    parseLinkedInIdentity c7NameAfterText =
      some { name := str "jdoe", profileUrl := str "https://www.linkedin.com/in/jdoe",
             verified := true } ∧
    parseLinkedInIdentity c7NameAfterText ≠
      some { name := str "Jane Doe", profileUrl := str "https://www.linkedin.com/in/jdoe",
             verified := true } := by
  refine ⟨by decide, by decide, rfl, by decide⟩

/-- Claim C7 (amended: the bounded-window name pairing only fires when the name label
precedes the LinkedIn mention): on the paired text with "name: Jane Doe" before
"LinkedIn: https://linkedin.com/in/jdoe", the text-strategy normalizer's first creator
identity is exactly {name: "Jane Doe", profileUrl normalized to the www.linkedin.com
form, verified: true}; with the name line only after the mention, the name falls back
to the profile username. -/
theorem c7_linkedin_name_pairing :
    parseLinkedInIdentity c7NameBeforeText =
      some { name := str "Jane Doe", profileUrl := str "https://www.linkedin.com/in/jdoe",
             verified := true } ∧
    parseLinkedInIdentity c7NameAfterText =
      some { name := str "jdoe", profileUrl := str "https://www.linkedin.com/in/jdoe",
             verified := true } :=
  ⟨rfl, rfl⟩

/-! ## C9: sections are omitted rather than empty -/

def AboutTheseCredentials.hasKeys (s : AboutTheseCredentials) : Bool :=
  s.claimSigner.isSome || s.signedBy.isSome || s.timestamp.isSome

def GenAIInfo.hasKeys (g : GenAIInfo) : Bool :=
  g.generative.isSome || g.training.isSome || g.model.isSome || g.version.isSome

theorem ne_nil_of_ite_some {α : Type} {l res : List α}
    (h : (if l.length > 0 then some l else none) = some res) : res ≠ [] := by
  split at h
  · rename_i hlen
    injection h with h
    subst h
    intro hnil
    rw [hnil] at hlen
    simp at hlen
  · exact absurd h (by simp)

theorem eq_self_of_ite_some {α : Type} {c : Bool} {x res : α}
    (h : (if c = true then some x else none) = some res) : res = x ∧ c = true := by
  split at h
  · rename_i hc
    injection h with h
    exact ⟨h.symm, hc⟩
  · exact absurd h (by simp)

theorem parseOtherIdentities_nonempty {text : List Char} {ids : List CreatorIdentity}
    (h : parseOtherIdentities text = some ids) : ids ≠ [] := by
  simp only [parseOtherIdentities] at h
  exact ne_nil_of_ite_some h

theorem parseWhoThisComesFrom_nonempty {text : List Char} {w : WhoThisComesFrom}
    (h : parseWhoThisComesFrom text = some w) :
    w.linkedInIdentity.isSome = true ∨
    ∃ ids, w.otherIdentities = some ids ∧ ids ≠ [] := by
  simp only [parseWhoThisComesFrom] at h
  obtain ⟨hres, hcond⟩ := eq_self_of_ite_some h
  subst hres
  simp only [Bool.or_eq_true] at hcond
  rcases hcond with hk | hk
  · exact Or.inl hk
  · right
    cases ho : parseOtherIdentities text with
    | none =>
      rw [ho] at hk
      simp at hk
    | some ids =>
      refine ⟨ids, ?_, parseOtherIdentities_nonempty ho⟩
      simp only [ho]

theorem parseContentActions_nonempty {swLookup whenLookup : List Char → Option (List Char)}
    {text : List Char} {acts : List ContentAction}
    (h : parseContentActions swLookup whenLookup text = some acts) : acts ≠ [] := by
  simp only [parseContentActions] at h
  exact ne_nil_of_ite_some h

theorem parseGenAIInfo_nonempty {text : List Char} {g : GenAIInfo}
    (h : parseGenAIInfo text = some g) : g.hasKeys = true := by
  simp only [parseGenAIInfo] at h
  obtain ⟨hres, hcond⟩ := eq_self_of_ite_some h
  subst hres
  unfold GenAIInfo.hasKeys
  exact hcond

theorem parseAboutThisContent_nonempty
    {swLookup whenLookup : List Char → Option (List Char)}
    {text : List Char} {c : AboutThisContent}
    (h : parseAboutThisContent swLookup whenLookup text = some c) :
    (c.actions.isSome = true ∨ c.genAIInfo.isSome = true) ∧
    (∀ a, c.actions = some a → a ≠ []) ∧
    (∀ g, c.genAIInfo = some g → g.hasKeys = true) := by
  simp only [parseAboutThisContent] at h
  obtain ⟨hres, hcond⟩ := eq_self_of_ite_some h
  subst hres
  simp only [Bool.or_eq_true] at hcond
  refine ⟨hcond, ?_, ?_⟩
  · intro a ha
    exact parseContentActions_nonempty ha
  · intro g hg
    exact parseGenAIInfo_nonempty hg

theorem parseAboutTheseCredentials_nonempty {text : List Char} {s : AboutTheseCredentials}
    (h : parseAboutTheseCredentials text = some s) : s.hasKeys = true := by
  simp only [parseAboutTheseCredentials] at h
  obtain ⟨hres, hcond⟩ := eq_self_of_ite_some h
  subst hres
  unfold AboutTheseCredentials.hasKeys
  exact hcond

theorem parseValidationInfo_nonempty {text : List Char} {v : ValidationInfo}
    (h : parseValidationInfo text = some v) :
    (v.certificate.isSome = true ∨ v.trustInfo.isSome = true) ∧
    (∀ c, v.certificate = some c → c.hasKeys = true) ∧
    (∀ l, v.trustInfo = some l → l ≠ []) := by
  simp only [parseValidationInfo] at h
  obtain ⟨hres, hcond⟩ := eq_self_of_ite_some h
  subst hres
  simp only [Bool.or_eq_true] at hcond
  refine ⟨hcond, ?_, ?_⟩
  · intro c hc
    simp only at hc
    obtain ⟨hc1, hc2⟩ := eq_self_of_ite_some hc
    subst hc1
    exact hc2
  · intro l hl
    simp only at hl
    exact ne_nil_of_ite_some hl

theorem parseCreatorInfo_nonempty {m : Json} {w : WhoThisComesFrom}
    (h : parseCreatorInfo m = some w) :
    ∃ ids, w.otherIdentities = some ids ∧ ids ≠ [] := by
  simp only [parseCreatorInfo] at h
  split at h
  · split at h
    · exact absurd h (by simp)
    · split at h
      · rename_i hlen
        injection h with h
        subst h
        exact ⟨_, rfl, List.length_pos.mp hlen⟩
      · exact absurd h (by simp)
  · exact absurd h (by simp)

theorem parseSignatureInfo_nonempty {m : Json} {s : AboutTheseCredentials}
    (h : parseSignatureInfo m = some s) : s.hasKeys = true := by
  simp only [parseSignatureInfo] at h
  split at h
  · split at h
    · obtain ⟨hres, hcond⟩ := eq_self_of_ite_some h
      subst hres
      unfold AboutTheseCredentials.hasKeys
      exact hcond
    · exact absurd h (by simp)
  · exact absurd h (by simp)

theorem parseValidationResults_nonempty {root m : Json} {v : ValidationInfo}
    (h : parseValidationResults root m = some v) :
    (v.certificate.isSome = true ∨ v.trustInfo.isSome = true) ∧
    (∀ c, v.certificate = some c → c.hasKeys = true) ∧
    (∀ l, v.trustInfo = some l → l ≠ []) := by
  simp only [parseValidationResults] at h
  obtain ⟨hres, hcond⟩ := eq_self_of_ite_some h
  subst hres
  simp only [Bool.or_eq_true] at hcond
  refine ⟨hcond, ?_, ?_⟩
  · intro c hc
    simp only at hc
    split at hc
    · split at hc
      · obtain ⟨h1, h2⟩ := eq_self_of_ite_some hc
        subst h1
        exact h2
      · exact absurd hc (by simp)
    · exact absurd hc (by simp)
  · intro l hl
    simp only at hl
    exact ne_nil_of_ite_some hl

/-- `parseManifestJson` either returns the empty default record or the four sections
computed from the dereferenced active manifest. -/
theorem parseManifestJson_sections (json : Json) (raw : List Char) :
    parseManifestJson json raw =
      { whoThisComesFrom := none, aboutThisContent := none,
        aboutTheseCredentials := none, validationInfo := none, rawManifest := some raw } ∨
    ∃ mf, parseManifestJson json raw =
      { whoThisComesFrom := parseCreatorInfo mf
        aboutThisContent :=
          if (parseActions mf).length > 0 then
            some { actions := some (parseActions mf), genAIInfo := none }
          else none
        aboutTheseCredentials := parseSignatureInfo mf
        validationInfo := parseValidationResults json mf
        rawManifest := some raw } := by
  simp only [parseManifestJson]
  split
  · exact Or.inl rfl
  · split
    · exact Or.inl rfl
    · split
      · split
        · split
          · exact Or.inl rfl
          · split
            · split
              · exact Or.inl rfl
              · exact Or.inr ⟨_, rfl⟩
            · exact Or.inl rfl
        · exact Or.inl rfl
      · exact Or.inl rfl

/-- Claim C9: whatever the manifest — structured (parseManifestJson) or text (the
pattern parsers) — every normalizer section with no extracted data is omitted rather
than returned as an empty container: the identity section, actions list, credential
metadata, and validation info (certificate and trust notes) are present only when at
least one field or element was actually extracted. -/
theorem c9_empty_sections_omitted :
    (∀ (json : Json) (raw : List Char) (w : WhoThisComesFrom),
      (parseManifestJson json raw).whoThisComesFrom = some w →
      ∃ ids, w.otherIdentities = some ids ∧ ids ≠ []) ∧
    (∀ (json : Json) (raw : List Char) (c : AboutThisContent),
      (parseManifestJson json raw).aboutThisContent = some c →
      ∃ acts, c.actions = some acts ∧ acts ≠ []) ∧
    (∀ (json : Json) (raw : List Char) (s : AboutTheseCredentials),
      (parseManifestJson json raw).aboutTheseCredentials = some s → s.hasKeys = true) ∧
    (∀ (json : Json) (raw : List Char) (v : ValidationInfo),
      (parseManifestJson json raw).validationInfo = some v →
      (v.certificate.isSome = true ∨ v.trustInfo.isSome = true) ∧
      (∀ c, v.certificate = some c → c.hasKeys = true) ∧
      (∀ l, v.trustInfo = some l → l ≠ [])) ∧
    (∀ (text : List Char) (w : WhoThisComesFrom),
      parseWhoThisComesFrom text = some w →
      w.linkedInIdentity.isSome = true ∨
      ∃ ids, w.otherIdentities = some ids ∧ ids ≠ []) ∧
    (∀ (swLookup whenLookup : List Char → Option (List Char)) (text : List Char)
       (c : AboutThisContent),
      parseAboutThisContent swLookup whenLookup text = some c →
      (c.actions.isSome = true ∨ c.genAIInfo.isSome = true) ∧
      (∀ a, c.actions = some a → a ≠ []) ∧
      (∀ g, c.genAIInfo = some g → g.hasKeys = true)) ∧
    (∀ (text : List Char) (s : AboutTheseCredentials),
      parseAboutTheseCredentials text = some s → s.hasKeys = true) ∧
    (∀ (text : List Char) (v : ValidationInfo),
      parseValidationInfo text = some v →
      (v.certificate.isSome = true ∨ v.trustInfo.isSome = true) ∧
      (∀ c, v.certificate = some c → c.hasKeys = true) ∧
      (∀ l, v.trustInfo = some l → l ≠ [])) := by
  refine ⟨?_, ?_, ?_, ?_, ?_, ?_, ?_, ?_⟩
  · intro json raw w h
    rcases parseManifestJson_sections json raw with heq | ⟨mf, heq⟩
    · rw [heq] at h
      exact absurd h (by simp)
    · rw [heq] at h
      exact parseCreatorInfo_nonempty h
  · intro json raw c h
    rcases parseManifestJson_sections json raw with heq | ⟨mf, heq⟩
    · rw [heq] at h
      exact absurd h (by simp)
    · rw [heq] at h
      simp only at h
      split at h
      · rename_i hlen
        injection h with h
        subst h
        exact ⟨parseActions mf, rfl, List.length_pos.mp hlen⟩
      · exact absurd h (by simp)
  · intro json raw s h
    rcases parseManifestJson_sections json raw with heq | ⟨mf, heq⟩
    · rw [heq] at h
      exact absurd h (by simp)
    · rw [heq] at h
      exact parseSignatureInfo_nonempty h
  · intro json raw v h
    rcases parseManifestJson_sections json raw with heq | ⟨mf, heq⟩
    · rw [heq] at h
      exact absurd h (by simp)
    · rw [heq] at h
      exact parseValidationResults_nonempty h
  · intro text w h
    exact parseWhoThisComesFrom_nonempty h
  · intro swLookup whenLookup text c h
    exact parseAboutThisContent_nonempty h
  · intro text s h
    exact parseAboutTheseCredentials_nonempty h
  · intro text v h
    exact parseValidationInfo_nonempty h

/-- A structured manifest whose active manifest carries creator info. -/
def c9JsonManifest : Json :=
  .obj [(str "active_manifest", .str (str "m1")),
        (str "manifests", .obj [(str "m1",
          .obj [(str "claim_generator_info",
                 .arr [.obj [(str "name", .str (str "TestApp"))]])])])]

/-- Witness for C9: a structured manifest with one generator entry yields a nonempty
identity section, and the text "signer: Acme" yields a credential section with its
signer populated. -/
theorem c9_witness :
    (∃ ids, (WhoThisComesFrom.mk none
        (some [{ name := some (str "TestApp"), identifier := none,
                 socialAccounts := none }])).otherIdentities = some ids ∧ ids ≠ []) ∧
    (AboutTheseCredentials.mk (some (str "Acme")) none none).hasKeys = true := by
  constructor
  · exact c9_empty_sections_omitted.1 c9JsonManifest (str "{}") _ rfl
  · exact c9_empty_sections_omitted.2.2.2.2.2.2.1 (str "signer: Acme") _ rfl
